import Mathlib

/-!
Shallow embedding of `labeller.py` from TMDb-Labels-for-Plex.

Label sets of Plex entities are modelled as `Finset String`; the mutation
helpers of the script (`set_label`, `set_status_label`,
`remove_all_special_labels`, `set_episode_special_labels`) become pure
functions from a label set to a new label set (plus the `modified` flag the
script returns where it returns one).  The per-series main loop
(lines 269-411 of the script) is `process_series`.  Python dates are
modelled by `PyDate` with the proleptic-Gregorian ordinal used by
`datetime.date`; the timestamps compared by the change gate are modelled as
integers.
-/

namespace TLP

/-- Python's `str.startswith`, on the character list of the string. -/
def pyStartswith (s p : String) : Bool := p.data.isPrefixOf s.data

theorem strData_append (a b : String) : (a ++ b).data = a.data ++ b.data := by
  cases a; cases b; rfl

theorem isPrefixOf_append_self : ∀ (a b : List Char), a.isPrefixOf (a ++ b) = true
  | [], _ => by simp [List.isPrefixOf]
  | c :: cs, b => by
      simp [List.isPrefixOf, isPrefixOf_append_self cs b]

theorem isPrefixOf_append_of_le :
    ∀ (p a b : List Char), p.length ≤ a.length →
      p.isPrefixOf (a ++ b) = p.isPrefixOf a
  | [], _, _, _ => by simp [List.isPrefixOf]
  | c :: cs, [], b, h => by simp at h
  | c :: cs, d :: ds, b, h => by
      simp only [List.cons_append, List.isPrefixOf]
      exact congrArg (fun x => c == d && x)
        (isPrefixOf_append_of_le cs ds b (Nat.le_of_succ_le_succ h))

theorem isPrefixOf_take :
    ∀ (p l : List Char), p.isPrefixOf l = true →
      ∀ k, k ≤ p.length → l.take k = p.take k
  | [], l, _, k, hk => by
      have : k = 0 := Nat.le_zero.mp hk
      simp [this]
  | c :: cs, [], h, _, _ => by simp [List.isPrefixOf] at h
  | c :: cs, d :: ds, h, k, hk => by
      simp only [List.isPrefixOf, Bool.and_eq_true, beq_iff_eq] at h
      cases k with
      | zero => simp
      | succ k =>
          simp only [List.take_succ_cons, h.1]
          rw [isPrefixOf_take cs ds h.2 k (Nat.le_of_succ_le_succ hk)]

theorem take_append_of_le :
    ∀ (a b : List Char) (k : Nat), k ≤ a.length → (a ++ b).take k = a.take k
  | _, _, 0, _ => by simp
  | [], _, k + 1, h => by simp at h
  | c :: cs, b, k + 1, h => by
      simp only [List.cons_append, List.take_succ_cons]
      rw [take_append_of_le cs b k (Nat.le_of_succ_le_succ h)]

/-- The string `A ++ x` always starts with `A`. -/
theorem ps_self_append (A x : String) : pyStartswith (A ++ x) A = true := by
  unfold pyStartswith
  rw [strData_append]
  exact isPrefixOf_append_self _ _

/-- For a test prefix no longer than the fixed head `A`, whether `A ++ x`
starts with it does not depend on the tail `x`. -/
theorem ps_append_eq (A x P : String) (h : P.data.length ≤ A.data.length) :
    pyStartswith (A ++ x) P = pyStartswith A P := by
  unfold pyStartswith
  rw [strData_append]
  exact isPrefixOf_append_of_le _ _ _ h

/-- If the first `k` characters of `A` and of `P` already disagree, then
`A ++ x` does not start with `P`, whatever `x` is. -/
theorem ps_append_false_of_take (A x P : String) (k : Nat)
    (hA : k ≤ A.data.length) (hP : k ≤ P.data.length)
    (h : A.data.take k ≠ P.data.take k) :
    pyStartswith (A ++ x) P = false := by
  cases hps : pyStartswith (A ++ x) P with
  | false => rfl
  | true =>
      exfalso
      apply h
      unfold pyStartswith at hps
      rw [strData_append] at hps
      have := isPrefixOf_take P.data (A.data ++ x.data) hps k hP
      rw [take_append_of_le A.data x.data k hA] at this
      exact this

/-- A string of the shape `A ++ x` cannot equal a concrete string `S` that
does not start with `A`. -/
theorem append_ne_concrete (A x S : String) (h : pyStartswith S A = false) :
    A ++ x ≠ S := by
  intro he
  have h1 : pyStartswith (A ++ x) A = true := ps_self_append A x
  rw [he, h] at h1
  exact Bool.noConfusion h1

/-! ## Dates

`PyDate` models `datetime.date`; `toordinal` is the proleptic-Gregorian
ordinal (1 = 0001-01-01) that underlies Python date subtraction and
comparison, computed by the standard days-from-civil algorithm. -/

structure PyDate where
  year : Int
  month : Int
  day : Int
deriving DecidableEq

def PyDate.toordinal (d : PyDate) : Int :=
  let y : Int := if d.month ≤ 2 then d.year - 1 else d.year
  let era : Int := Int.fdiv y 400
  let yoe : Int := y - era * 400
  let mp : Int := Int.emod (d.month + 9) 12
  let doy : Int := Int.fdiv (153 * mp + 2) 5 + d.day - 1
  let doe : Int := yoe * 365 + Int.fdiv yoe 4 - Int.fdiv yoe 100 + doy
  era * 146097 + doe - 719468 + 719163

def weekdayNames : List String :=
  ["Monday", "Tuesday", "Wednesday", "Thursday", "Friday", "Saturday", "Sunday"]

/-- `date.strftime("%A")`: full weekday name (Python ordinal 1 is a Monday). -/
def PyDate.strfA (d : PyDate) : String :=
  weekdayNames.getD ((d.toordinal - 1).emod 7).toNat ""

def pad2 (n : Int) : String := if n < 10 then "0" ++ toString n else toString n

/-- `date.strftime("%m/%d")`. -/
def PyDate.strfMMDD (d : PyDate) : String := pad2 d.month ++ "/" ++ pad2 d.day

/-- `date.strftime("%d/%m")`. -/
def PyDate.strfDDMM (d : PyDate) : String := pad2 d.day ++ "/" ++ pad2 d.month

/-- Python's `str.lower()` (ASCII behaviour), on the character list. -/
def pyLower (s : String) : String := String.mk (s.data.map Char.toLower)

/-- Python's `str.title()` (ASCII behaviour): a letter is uppercased when the
preceding character is not a letter, otherwise lowercased. -/
def pyTitle (s : String) : String :=
  String.mk (s.data.foldl
    (fun (acc : List Char × Bool) c =>
      (acc.1 ++ [if c.isAlpha then (if acc.2 then c.toLower else c.toUpper) else c],
       c.isAlpha))
    ([], false)).1

/-! ## Configuration and vocabularies (lines 16-22 of the script) -/

/-- The date-formatting and window options of the configuration block.  The
script holds them as module-level constants `DATE_FORMAT`, `DAY_INDICATOR`,
`DAYS_TO_CONSIDER` and `RETURNING_DAYS`; they are gathered in a structure so
that boundary properties can be stated for every configuration.  -/
structure Config where
  dateFormat : String
  dayIndicator : Bool
  daysToConsider : Int
  returningDays : Int
deriving DecidableEq

/-- The configuration shipped in the script. -/
def defaultConfig : Config :=
  { dateFormat := "MM/DD", dayIndicator := true, daysToConsider := 7, returningDays := 28 }

def SPECIAL_LABELS : Finset String :=
  {"Pilot", "Season Premiere", "Season Finale", "Series Finale", "Mid-Season Finale"}

def STATUS_LABELS : Finset String :=
  {"Status: Ended", "Status: Canceled", "Status: Returning Series"}

/-- The prefix test used by the Upcoming-label removal loops
(`l.startswith("New Episode") or l.startswith("New Season") or
l.startswith("Returning")`). -/
def isUpcoming (l : String) : Bool :=
  pyStartswith l "New Episode" || pyStartswith l "New Season" || pyStartswith l "Returning"

/-- Membership in the open-ended Status sub-vocabulary (labels with the
`"Status: "` prefix). -/
def isStatus (l : String) : Bool := pyStartswith l "Status: "

/-! ## Label reconciliation helpers (lines 148-262) -/

/-- `set_label` (lines 148-160): remove every currently applied special label
different from `label`, then add `label` when truthy and not yet present;
returns the new label set and the `modified` flag. -/
def set_label (labels : Finset String) (label : String) : Finset String × Bool :=
  let removed := (labels ∩ SPECIAL_LABELS).filter (fun l => l ≠ label)
  let labels1 := labels.filter (fun l => ¬(l ∈ SPECIAL_LABELS ∧ l ≠ label))
  if label ≠ "" ∧ label ∉ labels then
    (insert label labels1, true)
  else
    (labels1, decide (removed ≠ ∅))

/-- `remove_all_special_labels` (lines 229-234); the script returns `None`
here, so no `modified` flag is produced. -/
def remove_all_special_labels (labels : Finset String) : Finset String :=
  labels.filter (fun l => l ∉ SPECIAL_LABELS)

/-- `set_episode_special_labels` (lines 242-262), success path of the
`try` block: remove applied special labels not in `new_labels`, add the
members of `new_labels` not yet applied; returns the new set and `modified`. -/
def set_episode_special_labels (labels : Finset String) (new_labels : Finset String) :
    Finset String × Bool :=
  let removed := (labels ∩ SPECIAL_LABELS).filter (fun l => l ∉ new_labels)
  let added := new_labels.filter (fun l => l ∉ labels)
  (labels.filter (fun l => ¬(l ∈ SPECIAL_LABELS ∧ l ∉ new_labels)) ∪ added,
   decide (removed ≠ ∅ ∨ added ≠ ∅))

/-! ## Upcoming-label classification and `set_status_label` (lines 163-226) -/

/-- The `next_episode_to_air` payload of the TMDb response; each field comes
from a `.get`, so it may be absent, and the guard on line 170 tests Python
truthiness (absent or zero both fail). -/
structure NextEp where
  air_date : Option PyDate
  season_number : Option Nat
  episode_number : Option Nat
deriving DecidableEq

/-- The branch taken by the upcoming-label part of `set_status_label`,
carrying the exact label string built by the corresponding f-string. -/
inductive UpChoice where
  | newEpisode (label : String)
  | newSeason (label : String)
  | returning (label : String)
  | noLabel
deriving DecidableEq

/-- Lines 173-176: weekday name when `DAY_INDICATOR` and the episode is at
most 7 days away, otherwise numeric according to `DATE_FORMAT`. -/
def formattedDate (cfg : Config) (air : PyDate) (days_until : Int) : String :=
  if cfg.dayIndicator ∧ days_until ≤ 7 then air.strfA
  else if cfg.dateFormat = "MM/DD" then air.strfMMDD else air.strfDDMM

/-- The decision structure of lines 165-218: which upcoming label, if any,
`set_status_label` derives from the next-episode payload. -/
def upcomingChoice (cfg : Config) (today : PyDate) (nextEp : Option NextEp)
    (latestIdx : Nat) : UpChoice :=
  match nextEp with
  | none => .noLabel
  | some ne =>
      match ne.air_date with
      | none => .noLabel
      | some air =>
          if ne.season_number.getD 0 ≠ 0 ∧ ne.episode_number.getD 0 ≠ 0 then
            let days_until : Int := air.toordinal - today.toordinal
            let formatted_date := formattedDate cfg air days_until
            if days_until ≤ cfg.daysToConsider then
              if ne.season_number.getD 0 = latestIdx ∧ ne.episode_number.getD 0 ≠ 1 then
                .newEpisode ("New Episode " ++ formatted_date)
              else
                .newSeason ("New Season " ++ formatted_date)
            else if days_until ≤ cfg.returningDays then
              .returning ("Returning " ++ formatted_date)
            else .noLabel
          else .noLabel

/-- `set_status_label` (lines 163-226) acting on the show's and the latest
season's label sets; returns the pair (new show labels, new latest-season
labels).  `tmdb_status` is the already lower-cased status of line 287.  Note
that each removal loop iterates over a snapshot of the labels taken before
the removals, and the `not in existing` test for the addition also uses that
snapshot. -/
def set_status_label (cfg : Config) (today : PyDate) (nextEp : Option NextEp)
    (tmdb_status : String) (showLabels seasonLabels : Finset String)
    (latestIdx : Nat) : Finset String × Finset String :=
  let p := match upcomingChoice cfg today nextEp latestIdx with
  | .newEpisode label =>
      let existing_show := showLabels
      let show1 := existing_show.filter (fun l => ¬isUpcoming l)
      let show1 := if label ∈ existing_show then show1 else insert label show1
      let existing_season := seasonLabels
      let season1 := existing_season.filter (fun l => ¬isUpcoming l)
      let season1 := if label ∈ existing_season then season1 else insert label season1
      (show1, season1)
  | .newSeason label =>
      let existing_show := showLabels
      let show1 := existing_show.filter (fun l => ¬isUpcoming l)
      (if label ∈ existing_show then show1 else insert label show1, seasonLabels)
  | .returning returning_label =>
      let existing_show := showLabels
      let show1 := existing_show.filter (fun l => ¬pyStartswith l "Returning")
      (if returning_label ∈ existing_show then show1 else insert returning_label show1,
       seasonLabels)
  | .noLabel => (showLabels, seasonLabels)
  let existing := p.1
  let show2 := p.1.filter (fun l => l ∉ STATUS_LABELS)
  let show2 :=
    if tmdb_status ≠ "" then
      let status_label := "Status: " ++ pyTitle tmdb_status
      if status_label ∈ existing then show2 else insert status_label show2
    else show2
  (show2, p.2)

/-! ## Special-label classification (lines 345-391) -/

/-- One TMDb episode record as used by the season loop: `episode_number` is
always present in TMDb data, `air_date` may be absent (or empty), and
`episode_type` is free text. -/
structure EpData where
  episode_number : Nat
  air_date : Option PyDate
  episode_type : String
deriving DecidableEq

structure SeasonData where
  episodes : List EpData
deriving DecidableEq

/-- Lines 349-356: the candidate label derived from the last aired episode
of a season.  `ep_type` is the already lower-cased episode type. -/
def classify_last_ep (ep_num : Nat) (ep_type : String) (seasonIdx finalIdx : Nat)
    (tmdb_status : String) : Option String :=
  if ep_num = 1 then
    some (if seasonIdx = 1 then "Pilot" else "Season Premiere")
  else if ep_type = "mid_season" then some "Mid-Season Finale"
  else if ep_type = "finale" then
    some (if seasonIdx = finalIdx ∧ (tmdb_status = "ended" ∨ tmdb_status = "canceled")
          then "Series Finale" else "Season Finale")
  else none

/-- Lines 380-389: the per-episode candidate label. -/
def episode_candidate (seasonIdx finalIdx : Nat) (tmdb_status : String)
    (ep : EpData) : Option String :=
  if seasonIdx = 1 ∧ ep.episode_number = 1 then some "Pilot"
  else if ep.episode_number = 1 then some "Season Premiere"
  else if pyLower ep.episode_type = "mid_season" then some "Mid-Season Finale"
  else if pyLower ep.episode_type = "finale" then
    some (if seasonIdx = finalIdx ∧ (tmdb_status = "ended" ∨ tmdb_status = "canceled")
          then "Series Finale" else "Season Finale")
  else none

/-- Insertion into a Python dict viewed as an association list preserving
first-insertion order. -/
def dictInsert (d : List (Nat × String)) (k : Nat) (v : String) : List (Nat × String) :=
  if d.any (fun p => p.1 = k) then d.map (fun p => if p.1 = k then (k, v) else p)
  else d ++ [(k, v)]

/-- Lines 370-391: the `candidate_episodes` dict, keyed by episode number. -/
def candidate_episodes (seasonIdx finalIdx : Nat) (tmdb_status : String)
    (today : PyDate) (eps : List EpData) : List (Nat × String) :=
  eps.foldl
    (fun d ep =>
      match ep.air_date with
      | none => d
      | some dte =>
          if dte.toordinal > today.toordinal then d
          else
            match episode_candidate seasonIdx finalIdx tmdb_status ep with
            | some c => dictInsert d ep.episode_number c
            | none => d)
    []

/-! ## Plex entities and the per-series main loop (lines 269-411) -/

/-- A Plex episode: its number and its label set. -/
structure EpisodeE where
  index : Nat
  labels : Finset String
deriving DecidableEq

/-- A Plex season.  Plex season indices are natural numbers; index 0
(specials) is falsy in Python, matching the `if s.index` filters. -/
structure SeasonE where
  index : Nat
  labels : Finset String
  episodes : List EpisodeE
deriving DecidableEq

/-- A Plex show: its label set and its seasons. -/
structure ShowE where
  labels : Finset String
  seasons : List SeasonE
deriving DecidableEq

/-- The TMDb series snapshot of one processing pass: the lower-casing of
`status` happens at use site (line 287); `last_air_date` is the timestamp
compared by the change gate (timestamps are modelled as integers);
`seasons` is the `all_tmdb_data` map of season number to fetched season
data (seasons whose batch fetch failed are absent). -/
structure Snapshot where
  status : String
  last_air_date : Option Int
  next_episode_to_air : Option NextEp
  seasons : List (Nat × SeasonData)
deriving DecidableEq

/-- Lines 298-303: `should_process = not last_updated_dt or is_rerun`. -/
def shouldProcess (prior : Option Int) (lastAir : Option Int) : Bool :=
  match prior with
  | none => true
  | some p =>
      match lastAir with
      | none => false
      | some a => a > p

/-- Lookup in the fetched-season map (`all_tmdb_data`). -/
def lookupSeason (l : List (Nat × SeasonData)) (n : Nat) : Option SeasonData :=
  (l.find? (fun p => p.1 = n)).map Prod.snd

/-- `season.episode(ep_number)`: the episode with the given number, if any. -/
def findEpisode (eps : List EpisodeE) (n : Nat) : Option EpisodeE :=
  eps.find? (fun e => e.index = n)

/-- Write back the labels of the episode with number `n` (the first match,
mirroring Plex lookup by episode number). -/
def updateFirstEpisode : List EpisodeE → Nat → Finset String → List EpisodeE
  | [], _, _ => []
  | e :: rest, n, labs =>
      if e.index = n then { e with labels := labs } :: rest
      else e :: updateFirstEpisode rest n labs

/-- Line 293, `max(plex_seasons, key=lambda s: s.index or 0)`: the position
of the first season with maximal index (Python `max` keeps the first
maximal element). -/
def latestSeasonPos (seasons : List SeasonE) : Nat :=
  match seasons with
  | [] => 0
  | s0 :: _ =>
      (List.range seasons.length).foldl
        (fun acc i =>
          if (seasons.getD i s0).index > (seasons.getD acc s0).index then i else acc)
        0

/-- Line 324: `max(int(k.split("/")[1]) for k in tmdb_season_keys)` (the
script raises on an empty key set; `process_series` guards that case and
aborts the series as the surrounding `try` does). -/
def final_season_index (seasons : List (Nat × SeasonData)) : Nat :=
  (seasons.map Prod.fst).foldl max 0

/-- Lines 338-339: the episodes of a fetched season whose air date is
present and not in the future. -/
def airedEpisodes (today : PyDate) (sd : SeasonData) : List EpData :=
  sd.episodes.filter (fun ep =>
    match ep.air_date with
    | some d => d.toordinal ≤ today.toordinal
    | none => false)

/-- The label the season loop computes for a fetched season: `none` when no
episode has aired, otherwise the classification of the last aired
episode (lines 336-357). -/
def seasonDesired (today : PyDate) (tmdb_status : String) (finalIdx seasonIdx : Nat)
    (sd : SeasonData) : Option String :=
  match airedEpisodes today sd with
  | [] => none
  | e0 :: rest =>
      let last_ep := rest.foldl
        (fun a b => if b.episode_number > a.episode_number then b else a) e0
      classify_last_ep last_ep.episode_number (pyLower last_ep.episode_type)
        seasonIdx finalIdx tmdb_status

/-- Lines 393-401: the loop over `candidate_episodes.items()`, threading the
Plex episode list and the OR of the per-episode `modified` flags. -/
def epFold (cands : List (Nat × String)) (st : List EpisodeE × Bool) :
    List EpisodeE × Bool :=
  cands.foldl
    (fun acc p =>
      match findEpisode acc.1 p.1 with
      | none => acc
      | some e =>
          let r := set_episode_special_labels e.labels {p.2}
          (updateFirstEpisode acc.1 p.1 r.1, acc.2 || r.2))
    st

/-- The outcome of the season loop body for one season: the updated season,
the flag that is OR-ed into `any_modified`, and — when the
`season.index == latest_season.index` assignment ran — the value stored
into `latest_season_label`. -/
structure SeasonOutcome where
  season : SeasonE
  modified : Bool
  capture : Option (Option String)
deriving DecidableEq

/-- Lines 328-401: the body of `for season in plex_seasons`. -/
def processSeason (today : PyDate) (tmdb_status : String) (finalIdx latestIdx : Nat)
    (tmdbSeasons : List (Nat × SeasonData)) (s : SeasonE) : SeasonOutcome :=
  match lookupSeason tmdbSeasons s.index with
  | none => ⟨s, false, none⟩
  | some sd =>
      match airedEpisodes today sd with
      | [] => ⟨{ s with labels := remove_all_special_labels s.labels }, false, none⟩
      | e0 :: rest =>
          let last_ep := rest.foldl
            (fun a b => if b.episode_number > a.episode_number then b else a) e0
          let season_label := classify_last_ep last_ep.episode_number
            (pyLower last_ep.episode_type) s.index finalIdx tmdb_status
          let lm : Finset String × Bool :=
            match season_label with
            | some lbl => set_label s.labels lbl
            | none => (remove_all_special_labels s.labels, false)
          let capture : Option (Option String) :=
            if s.index = latestIdx then some season_label else none
          let cands := candidate_episodes s.index finalIdx tmdb_status today sd.episodes
          let epsRes := epFold cands (s.episodes, false)
          ⟨{ s with labels := lm.1, episodes := epsRes.1 }, lm.2 || epsRes.2, capture⟩

/-- The per-series result: the show with its new labels and the final
update-log value for the series (`some now` when the pass recorded itself,
otherwise the prior entry). -/
structure PassOutput where
  showE : ShowE
  logEntry : Option Int
deriving DecidableEq

/-- Lines 269-411: one iteration of the main loop for a show that has a
TMDb id and whose two TMDb fetches succeeded.  `prior` is
`update_log.get(tmdb_id)` and `now` the timestamp `datetime.now()` would
record.  The early `continue`s (no seasons in Plex, change gate) and the
`max()` exception on an empty fetched-season map (caught by the outer
`try`) all leave the update-log entry untouched. -/
def process_series (cfg : Config) (today : PyDate) (now : Int) (snap : Snapshot)
    (prior : Option Int) (sh : ShowE) : PassOutput :=
  match sh.seasons with
  | [] => ⟨sh, prior⟩
  | s0 :: _ =>
      let tmdb_status := pyLower snap.status
      let seasons := sh.seasons
      let latestPos := latestSeasonPos seasons
      let latest := seasons.getD latestPos s0
      let ssl := set_status_label cfg today snap.next_episode_to_air tmdb_status
        sh.labels latest.labels latest.index
      let seasons1 := seasons.set latestPos { latest with labels := ssl.2 }
      let sh1 : ShowE := ⟨ssl.1, seasons1⟩
      if ¬shouldProcess prior snap.last_air_date then ⟨sh1, prior⟩
      else if snap.seasons.isEmpty then ⟨sh1, prior⟩
      else
        let finalIdx := final_season_index snap.seasons
        let outcomes := seasons1.map
          (processSeason today tmdb_status finalIdx latest.index snap.seasons)
        let seasons2 := outcomes.map (·.season)
        let any1 := outcomes.foldl (fun b o => b || o.modified) false
        let latest_season_label := outcomes.foldl
          (fun acc o => match o.capture with | some x => x | none => acc)
          (none : Option String)
        let shRes : Finset String × Bool :=
          match latest_season_label with
          | some lbl => set_label sh1.labels lbl
          | none => (remove_all_special_labels sh1.labels, false)
        let any_modified := any1 || shRes.2
        ⟨⟨shRes.1, seasons2⟩, if any_modified then some now else prior⟩

/-! ## Helper lemmas -/

theorem init_le_foldl_max : ∀ (l : List Nat) (init : Nat), init ≤ l.foldl max init := by
  intro l
  induction l with
  | nil => intro init; simp
  | cons c cs ih =>
      intro init
      simp only [List.foldl_cons]
      exact le_trans (Nat.le_max_left init c) (ih (max init c))

theorem foldl_max_le (l : List Nat) (init : Nat) : ∀ k ∈ l, k ≤ l.foldl max init := by
  induction l generalizing init with
  | nil => intro k hk; simp at hk
  | cons c cs ih =>
      intro k hk
      simp only [List.foldl_cons]
      rcases List.mem_cons.mp hk with h | h
      · subst h
        exact le_trans (Nat.le_max_right init k) (init_le_foldl_max cs _)
      · exact ih (max init c) k h

theorem foldl_max_mem (l : List Nat) (init : Nat) :
    l.foldl max init = init ∨ l.foldl max init ∈ l := by
  induction l generalizing init with
  | nil => left; rfl
  | cons c cs ih =>
      simp only [List.foldl_cons]
      rcases ih (max init c) with h | h
      · rcases Nat.le_total c init with hci | hci
        · left; rw [h, Nat.max_eq_left hci]
        · right; rw [h, Nat.max_eq_right hci]; exact List.mem_cons_self _ _
      · right; exact List.mem_cons_of_mem _ h

theorem foldl_max_zero_mem (l : List Nat) (hl : l ≠ []) : l.foldl max 0 ∈ l := by
  rcases foldl_max_mem l 0 with h | h
  · cases l with
    | nil => exact absurd rfl hl
    | cons c cs =>
        have hc : c ≤ 0 := h ▸ foldl_max_le (c :: cs) 0 c (List.mem_cons_self _ _)
        have : c = 0 := Nat.le_zero.mp hc
        rw [h, ← this]
        exact List.mem_cons_self _ _
  · exact h

theorem foldl_choice_lt (xs : List Nat) (n : Nat) (f : Nat → Nat → Nat)
    (hf : ∀ a x, f a x = a ∨ f a x = x) :
    ∀ init, init < n → (∀ x ∈ xs, x < n) → xs.foldl f init < n := by
  induction xs with
  | nil => intro init h0 _; exact h0
  | cons c cs ih =>
      intro init h0 hx
      simp only [List.foldl_cons]
      refine ih (f init c) ?_ (fun x hx2 => hx x (List.mem_cons_of_mem _ hx2))
      rcases hf init c with h | h
      · rw [h]; exact h0
      · rw [h]; exact hx c (List.mem_cons_self _ _)

theorem latestSeasonPos_lt (seasons : List SeasonE) (h : seasons ≠ []) :
    latestSeasonPos seasons < seasons.length := by
  cases seasons with
  | nil => exact absurd rfl h
  | cons s0 rest =>
      unfold latestSeasonPos
      refine foldl_choice_lt _ _ _ ?_ 0 (Nat.succ_pos _) ?_
      · intro a x; dsimp only; split
        · right; rfl
        · left; rfl
      · intro x hx; exact List.mem_range.mp hx

theorem list_set_self {α : Type} : ∀ (l : List α) (n : Nat) (a : α),
    l[n]? = some a → l.set n a = l
  | [], n, a, h => by simp at h
  | b :: bs, 0, a, h => by
      simp only [List.getElem?_cons_zero, Option.some.injEq] at h
      simp [List.set, h]
  | b :: bs, n + 1, a, h => by
      simp only [List.getElem?_cons_succ] at h
      simp [List.set, list_set_self bs n a h]

theorem getD_eq_some_getElem {α : Type} (l : List α) (n : Nat) (d : α)
    (h : n < l.length) : l[n]? = some (l.getD n d) := by
  rw [List.getD_eq_getElem?_getD, List.getElem?_eq_getElem h]
  rfl

/-! ### Shape facts about the constructed label strings -/

theorem special_not_upcoming : ∀ l ∈ SPECIAL_LABELS, isUpcoming l = false := by decide

theorem special_not_returning :
    ∀ l ∈ SPECIAL_LABELS, pyStartswith l "Returning" = false := by decide

theorem special_not_status_mem : ∀ l ∈ SPECIAL_LABELS, l ∉ STATUS_LABELS := by decide

theorem newEpisode_not_special (x : String) : ("New Episode " ++ x) ∉ SPECIAL_LABELS := by
  intro h
  simp only [SPECIAL_LABELS, Finset.mem_insert, Finset.mem_singleton] at h
  rcases h with h | h | h | h | h <;>
    exact append_ne_concrete _ x _ (by decide) h

theorem newSeason_not_special (x : String) : ("New Season " ++ x) ∉ SPECIAL_LABELS := by
  intro h
  simp only [SPECIAL_LABELS, Finset.mem_insert, Finset.mem_singleton] at h
  rcases h with h | h | h | h | h <;>
    exact append_ne_concrete _ x _ (by decide) h

theorem returning_not_special (x : String) : ("Returning " ++ x) ∉ SPECIAL_LABELS := by
  intro h
  simp only [SPECIAL_LABELS, Finset.mem_insert, Finset.mem_singleton] at h
  rcases h with h | h | h | h | h <;>
    exact append_ne_concrete _ x _ (by decide) h

theorem statusPrefix_not_special (x : String) : ("Status: " ++ x) ∉ SPECIAL_LABELS := by
  intro h
  simp only [SPECIAL_LABELS, Finset.mem_insert, Finset.mem_singleton] at h
  rcases h with h | h | h | h | h <;>
    exact append_ne_concrete _ x _ (by decide) h

/-- Inversion: a `newEpisode` choice always carries a label of the shape
`"New Episode " ++ d`. -/
theorem upcomingChoice_newEpisode_shape {cfg : Config} {today : PyDate}
    {ne : Option NextEp} {idx : Nat} {lbl : String}
    (h : upcomingChoice cfg today ne idx = .newEpisode lbl) :
    ∃ d, lbl = "New Episode " ++ d := by
  rcases ne with _ | ⟨ad, sn, en⟩
  · simp [upcomingChoice] at h
  · rcases ad with _ | air
    · simp [upcomingChoice] at h
    · simp only [upcomingChoice] at h
      split at h
      · split at h
        · split at h
          · exact ⟨_, (UpChoice.newEpisode.injEq _ _ ▸ h.symm)⟩
          · simp at h
        · split at h <;> simp at h
      · simp at h

theorem upcomingChoice_newSeason_shape {cfg : Config} {today : PyDate}
    {ne : Option NextEp} {idx : Nat} {lbl : String}
    (h : upcomingChoice cfg today ne idx = .newSeason lbl) :
    ∃ d, lbl = "New Season " ++ d := by
  rcases ne with _ | ⟨ad, sn, en⟩
  · simp [upcomingChoice] at h
  · rcases ad with _ | air
    · simp [upcomingChoice] at h
    · simp only [upcomingChoice] at h
      split at h
      · split at h
        · split at h
          · simp at h
          · exact ⟨_, (UpChoice.newSeason.injEq _ _ ▸ h.symm)⟩
        · split at h <;> simp at h
      · simp at h

theorem upcomingChoice_returning_shape {cfg : Config} {today : PyDate}
    {ne : Option NextEp} {idx : Nat} {lbl : String}
    (h : upcomingChoice cfg today ne idx = .returning lbl) :
    ∃ d, lbl = "Returning " ++ d := by
  rcases ne with _ | ⟨ad, sn, en⟩
  · simp [upcomingChoice] at h
  · rcases ad with _ | air
    · simp [upcomingChoice] at h
    · simp only [upcomingChoice] at h
      split at h
      · split at h
        · split at h <;> simp at h
        · split at h
          · exact ⟨_, (UpChoice.returning.injEq _ _ ▸ h.symm)⟩
          · simp at h
      · simp at h

/-! ### Special labels are untouched by `set_status_label` -/

theorem filter_special_of_filter (T : Finset String) (p : String → Bool)
    (hp : ∀ l ∈ SPECIAL_LABELS, p l = false) :
    (T.filter (fun l => ¬p l)).filter (fun l => l ∈ SPECIAL_LABELS)
      = T.filter (fun l => l ∈ SPECIAL_LABELS) := by
  ext a
  simp only [Finset.mem_filter]
  constructor
  · rintro ⟨⟨ha, -⟩, hs⟩; exact ⟨ha, hs⟩
  · rintro ⟨ha, hs⟩
    exact ⟨⟨ha, by simp [hp a hs]⟩, hs⟩

theorem filter_special_insert (s : Finset String) (lbl : String)
    (h : lbl ∉ SPECIAL_LABELS) :
    (insert lbl s).filter (fun l => l ∈ SPECIAL_LABELS)
      = s.filter (fun l => l ∈ SPECIAL_LABELS) := by
  rw [Finset.filter_insert, if_neg h]

theorem filter_special_status_step (s : Finset String) :
    (s.filter (fun l => l ∉ STATUS_LABELS)).filter (fun l => l ∈ SPECIAL_LABELS)
      = s.filter (fun l => l ∈ SPECIAL_LABELS) := by
  ext a
  simp only [Finset.mem_filter]
  constructor
  · rintro ⟨⟨ha, -⟩, hs⟩; exact ⟨ha, hs⟩
  · rintro ⟨ha, hs⟩; exact ⟨⟨ha, special_not_status_mem a hs⟩, hs⟩

/-- `set_status_label` never adds or removes a special label, on either the
show or the latest season. -/
theorem set_status_label_filter_special (cfg : Config) (today : PyDate)
    (ne : Option NextEp) (st : String) (T U : Finset String) (idx : Nat) :
    ((set_status_label cfg today ne st T U idx).1).filter (fun l => l ∈ SPECIAL_LABELS)
        = T.filter (fun l => l ∈ SPECIAL_LABELS) ∧
    ((set_status_label cfg today ne st T U idx).2).filter (fun l => l ∈ SPECIAL_LABELS)
        = U.filter (fun l => l ∈ SPECIAL_LABELS) := by
  have hstat : ∀ s : Finset String,
      s.filter (fun l => l ∈ SPECIAL_LABELS) = T.filter (fun l => l ∈ SPECIAL_LABELS) →
      ((if st ≠ "" then
          if ("Status: " ++ pyTitle st) ∈ s then s.filter (fun l => l ∉ STATUS_LABELS)
          else insert ("Status: " ++ pyTitle st) (s.filter (fun l => l ∉ STATUS_LABELS))
        else s.filter (fun l => l ∉ STATUS_LABELS))).filter
          (fun l => l ∈ SPECIAL_LABELS)
        = T.filter (fun l => l ∈ SPECIAL_LABELS) := by
    intro s hs
    split
    · split
      · rw [filter_special_status_step, hs]
      · rw [filter_special_insert _ _ (statusPrefix_not_special _),
          filter_special_status_step, hs]
    · rw [filter_special_status_step, hs]
  rcases hch : upcomingChoice cfg today ne idx with lbl | lbl | lbl | _
  · obtain ⟨d, rfl⟩ := upcomingChoice_newEpisode_shape hch
    constructor
    · simp only [set_status_label, hch]
      apply hstat
      split
      · exact filter_special_of_filter T _ special_not_upcoming
      · rw [filter_special_insert _ _ (newEpisode_not_special _)]
        exact filter_special_of_filter T _ special_not_upcoming
    · simp only [set_status_label, hch]
      split
      · exact filter_special_of_filter U _ special_not_upcoming
      · rw [filter_special_insert _ _ (newEpisode_not_special _)]
        exact filter_special_of_filter U _ special_not_upcoming
  · obtain ⟨d, rfl⟩ := upcomingChoice_newSeason_shape hch
    constructor
    · simp only [set_status_label, hch]
      apply hstat
      split
      · exact filter_special_of_filter T _ special_not_upcoming
      · rw [filter_special_insert _ _ (newSeason_not_special _)]
        exact filter_special_of_filter T _ special_not_upcoming
    · simp only [set_status_label, hch]
  · obtain ⟨d, rfl⟩ := upcomingChoice_returning_shape hch
    constructor
    · simp only [set_status_label, hch]
      apply hstat
      split
      · exact filter_special_of_filter T _ special_not_returning
      · rw [filter_special_insert _ _ (returning_not_special _)]
        exact filter_special_of_filter T _ special_not_returning
    · simp only [set_status_label, hch]
  · constructor
    · simp only [set_status_label, hch]
      exact hstat T rfl
    · simp only [set_status_label, hch]

/-! ### More shape facts -/

theorem newEpisode_isUpcoming (x : String) : isUpcoming ("New Episode " ++ x) = true := by
  have h1 : pyStartswith ("New Episode " ++ x) "New Episode" = true := by
    rw [ps_append_eq _ _ _ (by decide)]; decide
  simp [isUpcoming, h1]

theorem newSeason_isUpcoming (x : String) : isUpcoming ("New Season " ++ x) = true := by
  have h1 : pyStartswith ("New Season " ++ x) "New Season" = true := by
    rw [ps_append_eq _ _ _ (by decide)]; decide
  simp [isUpcoming, h1]

theorem returning_startswith (x : String) :
    pyStartswith ("Returning " ++ x) "Returning" = true := by
  rw [ps_append_eq _ _ _ (by decide)]; decide

theorem returning_isUpcoming (x : String) : isUpcoming ("Returning " ++ x) = true := by
  simp [isUpcoming, returning_startswith x]

theorem statusPrefix_not_upcoming (x : String) : isUpcoming ("Status: " ++ x) = false := by
  have h1 : pyStartswith ("Status: " ++ x) "New Episode" = false :=
    ps_append_false_of_take _ _ _ 1 (by decide) (by decide) (by decide)
  have h2 : pyStartswith ("Status: " ++ x) "New Season" = false :=
    ps_append_false_of_take _ _ _ 1 (by decide) (by decide) (by decide)
  have h3 : pyStartswith ("Status: " ++ x) "Returning" = false :=
    ps_append_false_of_take _ _ _ 1 (by decide) (by decide) (by decide)
  simp [isUpcoming, h1, h2, h3]

theorem statusPrefix_not_returning (x : String) :
    pyStartswith ("Status: " ++ x) "Returning" = false :=
  ps_append_false_of_take _ _ _ 1 (by decide) (by decide) (by decide)

theorem newEpisode_isStatus_false (x : String) : isStatus ("New Episode " ++ x) = false :=
  ps_append_false_of_take _ _ _ 1 (by decide) (by decide) (by decide)

theorem newSeason_isStatus_false (x : String) : isStatus ("New Season " ++ x) = false :=
  ps_append_false_of_take _ _ _ 1 (by decide) (by decide) (by decide)

theorem returning_isStatus_false (x : String) : isStatus ("Returning " ++ x) = false :=
  ps_append_false_of_take _ _ _ 1 (by decide) (by decide) (by decide)

theorem newEpisode_not_statusL (x : String) : ("New Episode " ++ x) ∉ STATUS_LABELS := by
  intro h
  simp only [STATUS_LABELS, Finset.mem_insert, Finset.mem_singleton] at h
  rcases h with h | h | h <;> exact append_ne_concrete _ x _ (by decide) h

theorem newSeason_not_statusL (x : String) : ("New Season " ++ x) ∉ STATUS_LABELS := by
  intro h
  simp only [STATUS_LABELS, Finset.mem_insert, Finset.mem_singleton] at h
  rcases h with h | h | h <;> exact append_ne_concrete _ x _ (by decide) h

theorem returning_not_statusL (x : String) : ("Returning " ++ x) ∉ STATUS_LABELS := by
  intro h
  simp only [STATUS_LABELS, Finset.mem_insert, Finset.mem_singleton] at h
  rcases h with h | h | h <;> exact append_ne_concrete _ x _ (by decide) h

theorem status_members_not_upcoming : ∀ l ∈ STATUS_LABELS, isUpcoming l = false := by decide

theorem status_members_not_returning :
    ∀ l ∈ STATUS_LABELS, pyStartswith l "Returning" = false := by decide

theorem status_members_isStatus : ∀ l ∈ STATUS_LABELS, isStatus l = true := by decide

/-! ### The status section of `set_status_label` -/

/-- Membership survives the status section for a label outside the fixed
status set. -/
theorem mem_status_step (s : Finset String) (st l : String)
    (hl : l ∈ s) (hns : l ∉ STATUS_LABELS) :
    l ∈ (if st ≠ "" then
           if ("Status: " ++ pyTitle st) ∈ s then
             Finset.filter (fun x => x ∉ STATUS_LABELS) s
           else insert ("Status: " ++ pyTitle st)
             (Finset.filter (fun x => x ∉ STATUS_LABELS) s)
         else Finset.filter (fun x => x ∉ STATUS_LABELS) s) := by
  have hmem : l ∈ s.filter (fun x => x ∉ STATUS_LABELS) :=
    Finset.mem_filter.mpr ⟨hl, hns⟩
  split
  · split
    · exact hmem
    · exact Finset.mem_insert_of_mem hmem
  · exact hmem

/-- A boolean-predicate filter that is false on the whole fixed status set
and on every `"Status: " ++ x` label passes unchanged through the status
section. -/
theorem filter_status_step (s : Finset String) (st : String) (pb : String → Bool)
    (hstatus : ∀ l ∈ STATUS_LABELS, pb l = false)
    (hsl : ∀ x, pb ("Status: " ++ x) = false) :
    (if st ≠ "" then
       if ("Status: " ++ pyTitle st) ∈ s then
         Finset.filter (fun x => x ∉ STATUS_LABELS) s
       else insert ("Status: " ++ pyTitle st)
         (Finset.filter (fun x => x ∉ STATUS_LABELS) s)
     else Finset.filter (fun x => x ∉ STATUS_LABELS) s).filter (fun l => pb l)
      = s.filter (fun l => pb l) := by
  have hbase : (Finset.filter (fun x => x ∉ STATUS_LABELS) s).filter (fun l => pb l)
      = s.filter (fun l => pb l) := by
    ext a
    simp only [Finset.mem_filter]
    constructor
    · rintro ⟨⟨ha, -⟩, hb⟩; exact ⟨ha, hb⟩
    · rintro ⟨ha, hb⟩
      refine ⟨⟨ha, fun hst => ?_⟩, hb⟩
      rw [hstatus a hst] at hb
      exact Bool.noConfusion hb
  split
  · split
    · exact hbase
    · rw [Finset.filter_insert, if_neg (by simp [hsl]), hbase]
  · exact hbase

/-! ### Upcoming-filter behaviour of `set_status_label` on the show -/

/-- When a New Episode / New Season label is derived, every other Upcoming
label is removed from the show: the upcoming filter of the result is
contained in the singleton of the new label. -/
theorem sss_up_filter_new (cfg : Config) (today : PyDate) (ne : Option NextEp)
    (st : String) (T U : Finset String) (idx : Nat) (lbl : String)
    (hch : upcomingChoice cfg today ne idx = .newEpisode lbl ∨
           upcomingChoice cfg today ne idx = .newSeason lbl) :
    (set_status_label cfg today ne st T U idx).1.filter (fun l => isUpcoming l) ⊆ {lbl} := by
  have hstep : ∀ s : Finset String,
      s.filter (fun l => isUpcoming l) ⊆ {lbl} →
      ((if st ≠ "" then
          if ("Status: " ++ pyTitle st) ∈ s then
            Finset.filter (fun x => x ∉ STATUS_LABELS) s
          else insert ("Status: " ++ pyTitle st)
            (Finset.filter (fun x => x ∉ STATUS_LABELS) s)
        else Finset.filter (fun x => x ∉ STATUS_LABELS) s)).filter
          (fun l => isUpcoming l) ⊆ {lbl} := by
    intro s hs
    rw [filter_status_step s st _ status_members_not_upcoming statusPrefix_not_upcoming]
    exact hs
  have hbase : ∀ s : Finset String,
      ((if lbl ∈ s then s.filter (fun l => ¬isUpcoming l)
        else insert lbl (s.filter (fun l => ¬isUpcoming l)))).filter
          (fun l => isUpcoming l) ⊆ {lbl} := by
    intro s
    intro a ha
    split at ha
    · rw [Finset.mem_filter] at ha
      obtain ⟨ha1, ha2⟩ := ha
      rw [Finset.mem_filter] at ha1
      exact absurd ha2 ha1.2
    · rw [Finset.filter_insert] at ha
      split at ha
      · rcases Finset.mem_insert.mp ha with h | h
        · simp [h]
        · rw [Finset.mem_filter] at h
          obtain ⟨h1, h2⟩ := h
          rw [Finset.mem_filter] at h1
          exact absurd h2 h1.2
      · rw [Finset.mem_filter] at ha
        obtain ⟨h1, h2⟩ := ha
        rw [Finset.mem_filter] at h1
        exact absurd h2 h1.2
  rcases hch with hch | hch
  · simp only [set_status_label, hch]
    exact hstep _ (hbase T)
  · simp only [set_status_label, hch]
    exact hstep _ (hbase T)

/-- When a Returning label is derived, only Returning-prefixed labels are
cleared: the Returning-filter of the result is contained in the new label's
singleton, and Upcoming labels with the other two prefixes pass through
unchanged. -/
theorem sss_ret_filter (cfg : Config) (today : PyDate) (ne : Option NextEp)
    (st : String) (T U : Finset String) (idx : Nat) (lbl : String)
    (hch : upcomingChoice cfg today ne idx = .returning lbl) :
    (set_status_label cfg today ne st T U idx).1.filter
        (fun l => pyStartswith l "Returning") ⊆ {lbl} ∧
    (set_status_label cfg today ne st T U idx).1.filter
        (fun l => isUpcoming l && !pyStartswith l "Returning")
      = T.filter (fun l => isUpcoming l && !pyStartswith l "Returning") := by
  obtain ⟨d, rfl⟩ := upcomingChoice_returning_shape hch
  constructor
  · simp only [set_status_label, hch]
    rw [filter_status_step _ st _ status_members_not_returning statusPrefix_not_returning]
    intro a ha
    split at ha
    · rw [Finset.mem_filter] at ha
      obtain ⟨ha1, ha2⟩ := ha
      rw [Finset.mem_filter] at ha1
      exact absurd ha2 ha1.2
    · rw [Finset.filter_insert] at ha
      split at ha
      · rcases Finset.mem_insert.mp ha with h | h
        · simp [h]
        · rw [Finset.mem_filter] at h
          obtain ⟨h1, h2⟩ := h
          rw [Finset.mem_filter] at h1
          exact absurd h2 h1.2
      · rw [Finset.mem_filter] at ha
        obtain ⟨h1, h2⟩ := ha
        rw [Finset.mem_filter] at h1
        exact absurd h2 h1.2
  · simp only [set_status_label, hch]
    rw [filter_status_step _ st _
      (by intro l hl; rw [status_members_not_upcoming l hl]; rfl)
      (by intro x; rw [statusPrefix_not_upcoming x]; rfl)]
    have hretlbl : (isUpcoming ("Returning " ++ d) &&
        !pyStartswith ("Returning " ++ d) "Returning") = false := by
      rw [returning_startswith d]
      simp
    split
    · ext a
      simp only [Finset.mem_filter, Bool.and_eq_true, Bool.not_eq_true',
        Bool.not_eq_true]
      constructor
      · rintro ⟨⟨ha, -⟩, hb⟩; exact ⟨ha, hb⟩
      · rintro ⟨ha, hu, hr⟩
        exact ⟨⟨ha, by simp [hr]⟩, hu, hr⟩
    · rw [Finset.filter_insert, if_neg (by simp [hretlbl])]
      ext a
      simp only [Finset.mem_filter, Bool.and_eq_true, Bool.not_eq_true',
        Bool.not_eq_true]
      constructor
      · rintro ⟨⟨ha, -⟩, hb⟩; exact ⟨ha, hb⟩
      · rintro ⟨ha, hu, hr⟩
        exact ⟨⟨ha, by simp [hr]⟩, hu, hr⟩

/-- When no upcoming label is derived, no Upcoming label is removed or
added on the show. -/
theorem sss_up_filter_none (cfg : Config) (today : PyDate) (ne : Option NextEp)
    (st : String) (T U : Finset String) (idx : Nat)
    (hch : upcomingChoice cfg today ne idx = .noLabel) :
    (set_status_label cfg today ne st T U idx).1.filter (fun l => isUpcoming l)
      = T.filter (fun l => isUpcoming l) := by
  simp only [set_status_label, hch]
  exact filter_status_step _ st _ status_members_not_upcoming statusPrefix_not_upcoming

/-- After the status section, the status-prefixed labels are contained in
the singleton of the newly built status label, provided every
status-prefixed label of the input lay in the fixed status set. -/
theorem status_filter_step_subset (s : Finset String) (st : String)
    (hs : ∀ l ∈ s, isStatus l = true → l ∈ STATUS_LABELS) :
    (if st ≠ "" then
       if ("Status: " ++ pyTitle st) ∈ s then
         Finset.filter (fun x => x ∉ STATUS_LABELS) s
       else insert ("Status: " ++ pyTitle st)
         (Finset.filter (fun x => x ∉ STATUS_LABELS) s)
     else Finset.filter (fun x => x ∉ STATUS_LABELS) s).filter
        (fun l => isStatus l) ⊆ {"Status: " ++ pyTitle st} := by
  have hbase : ∀ a, a ∈ (Finset.filter (fun x => x ∉ STATUS_LABELS) s).filter
      (fun l => isStatus l) → False := by
    intro a ha
    rw [Finset.mem_filter] at ha
    obtain ⟨h1, h2⟩ := ha
    rw [Finset.mem_filter] at h1
    exact h1.2 (hs a h1.1 h2)
  intro a ha
  split at ha
  · split at ha
    · exact absurd ha (fun h => hbase a h)
    · rw [Finset.filter_insert, if_pos (by exact_mod_cast ps_self_append "Status: " (pyTitle st))] at ha
      rcases Finset.mem_insert.mp ha with h | h
      · simp [h]
      · exact absurd h (fun h2 => hbase a h2)
  · exact absurd ha (fun h => hbase a h)

/-- The members of the upcoming step of `set_status_label` are the new label
or members of the input. -/
theorem upStep_members (T : Finset String) (lbl : String) (p : String → Bool) :
    ∀ a ∈ (if lbl ∈ T then T.filter (fun l => ¬p l)
           else insert lbl (T.filter (fun l => ¬p l))), a = lbl ∨ a ∈ T := by
  intro a ha
  split at ha
  · exact Or.inr (Finset.mem_filter.mp ha).1
  · rcases Finset.mem_insert.mp ha with h | h
    · exact Or.inl h
    · exact Or.inr (Finset.mem_filter.mp h).1

/-- At most one label of a sub-vocabulary (described by the predicate `p`)
is present in the label set `s`. -/
abbrev AtMostOne (p : String → Prop) (s : Finset String) : Prop :=
  ∀ a ∈ s, ∀ b ∈ s, p a → p b → a = b

theorem atMostOne_of_subset_singleton (p : String → Prop) [DecidablePred p]
    (s : Finset String) (x : String) (h : s.filter p ⊆ {x}) : AtMostOne p s := by
  intro a ha b hb hpa hpb
  have h1 := h (Finset.mem_filter.mpr ⟨ha, hpa⟩)
  have h2 := h (Finset.mem_filter.mpr ⟨hb, hpb⟩)
  rw [Finset.mem_singleton] at h1 h2
  rw [h1, h2]

theorem atMostOne_of_filter_eq (p : String → Prop) [DecidablePred p]
    (s t : Finset String) (h : s.filter p = t.filter p) (ht : AtMostOne p t) :
    AtMostOne p s := by
  intro a ha b hb hpa hpb
  have h1 : a ∈ t.filter p := h ▸ Finset.mem_filter.mpr ⟨ha, hpa⟩
  have h2 : b ∈ t.filter p := h ▸ Finset.mem_filter.mpr ⟨hb, hpb⟩
  exact ht a (Finset.mem_filter.mp h1).1 b (Finset.mem_filter.mp h2).1 hpa hpb

/-- The status-filter of the show after `set_status_label` is contained in
the new status label's singleton, provided every status-prefixed label of
the prior state lay in the fixed status set. -/
theorem sss_status_filter (cfg : Config) (today : PyDate) (ne : Option NextEp)
    (st : String) (T U : Finset String) (idx : Nat)
    (hSt : ∀ l ∈ T, isStatus l = true → l ∈ STATUS_LABELS) :
    (set_status_label cfg today ne st T U idx).1.filter (fun l => isStatus l)
      ⊆ {"Status: " ++ pyTitle st} := by
  rcases hch : upcomingChoice cfg today ne idx with lbl | lbl | lbl | _
  · obtain ⟨d, rfl⟩ := upcomingChoice_newEpisode_shape hch
    simp only [set_status_label, hch]
    apply status_filter_step_subset
    intro l hl hst
    rcases upStep_members T _ _ l hl with h | h
    · rw [h, newEpisode_isStatus_false] at hst
      exact Bool.noConfusion hst
    · exact hSt l h hst
  · obtain ⟨d, rfl⟩ := upcomingChoice_newSeason_shape hch
    simp only [set_status_label, hch]
    apply status_filter_step_subset
    intro l hl hst
    rcases upStep_members T _ _ l hl with h | h
    · rw [h, newSeason_isStatus_false] at hst
      exact Bool.noConfusion hst
    · exact hSt l h hst
  · obtain ⟨d, rfl⟩ := upcomingChoice_returning_shape hch
    simp only [set_status_label, hch]
    apply status_filter_step_subset
    intro l hl hst
    rcases upStep_members T _ _ l hl with h | h
    · rw [h, returning_isStatus_false] at hst
      exact Bool.noConfusion hst
    · exact hSt l h hst
  · simp only [set_status_label, hch]
    exact status_filter_step_subset T st hSt

/-- Every special label present after `set_label` equals the applied label. -/
theorem set_label_special_mem (s : Finset String) (lbl a : String)
    (ha : a ∈ (set_label s lbl).1) (hs : a ∈ SPECIAL_LABELS) : a = lbl := by
  simp only [set_label] at ha
  split at ha
  · rcases Finset.mem_insert.mp ha with h | h
    · exact h
    · have := (Finset.mem_filter.mp h).2
      by_contra hne
      exact this ⟨hs, hne⟩
  · have := (Finset.mem_filter.mp ha).2
    by_contra hne
    exact this ⟨hs, hne⟩

/-- Every special label present after `set_episode_special_labels` with a
singleton target belongs to that singleton. -/
theorem set_episode_special_mem (s : Finset String) (c a : String)
    (ha : a ∈ (set_episode_special_labels s {c}).1) (hs : a ∈ SPECIAL_LABELS) :
    a = c := by
  simp only [set_episode_special_labels] at ha
  rcases Finset.mem_union.mp ha with h | h
  · have h2 := (Finset.mem_filter.mp h).2
    by_contra hne
    exact h2 ⟨hs, by simp [hne]⟩
  · have := (Finset.mem_filter.mp h).1
    simpa using this

/-! ### Helpers for the per-series pass -/

theorem getD_eq_get {α : Type} (l : List α) (n : Nat) (d : α) (h : n < l.length) :
    l.getD n d = l.get ⟨n, h⟩ := by
  rw [List.getD_eq_getElem?_getD, List.getElem?_eq_getElem h]
  rfl

/-- The value written into `latest_season_label` by one season iteration. -/
theorem processSeason_capture (today : PyDate) (st : String) (fin latestIdx : Nat)
    (tmdb : List (Nat × SeasonData)) (s : SeasonE) :
    (processSeason today st fin latestIdx tmdb s).capture
      = match lookupSeason tmdb s.index with
        | none => none
        | some sd =>
            match airedEpisodes today sd with
            | [] => none
            | _ :: _ =>
                if s.index = latestIdx then
                  some (seasonDesired today st fin s.index sd)
                else none := by
  cases hlk : lookupSeason tmdb s.index with
  | none => simp only [processSeason, hlk]
  | some sd =>
      cases hair : airedEpisodes today sd with
      | nil => simp only [processSeason, hlk, hair]
      | cons e0 rest =>
          simp only [processSeason, hlk, hair, seasonDesired]

theorem foldl_capture_allnone :
    ∀ (l : List SeasonOutcome) (init : Option String),
      (∀ o ∈ l, o.capture = none) →
      l.foldl (fun acc o => match o.capture with | some x => x | none => acc) init = init
  | [], _, _ => rfl
  | o :: rest, init, h => by
      simp only [List.foldl_cons, h o (List.mem_cons_self _ _)]
      exact foldl_capture_allnone rest init
        (fun o2 h2 => h o2 (List.mem_cons_of_mem _ h2))

theorem foldl_capture_single :
    ∀ (l : List SeasonOutcome) (i : Nat) (hi : i < l.length) (init : Option String),
      (∀ j, (hj : j < l.length) → j ≠ i → (l.get ⟨j, hj⟩).capture = none) →
      l.foldl (fun acc o => match o.capture with | some x => x | none => acc) init
        = match (l.get ⟨i, hi⟩).capture with | some x => x | none => init
  | [], i, hi, _, _ => absurd hi (Nat.not_lt_zero i)
  | o :: rest, 0, _, init, h => by
      simp only [List.foldl_cons, List.get]
      apply foldl_capture_allnone
      intro o2 ho2
      obtain ⟨⟨j, hj⟩, rfl⟩ := List.mem_iff_get.mp ho2
      exact h (j + 1) (Nat.succ_lt_succ hj) (Nat.succ_ne_zero j)
  | o :: rest, k + 1, hi, init, h => by
      have h0 : o.capture = none := h 0 (Nat.succ_pos _) (Nat.zero_ne_add_one k)
      simp only [List.foldl_cons, h0, List.get]
      exact foldl_capture_single rest k (Nat.lt_of_succ_lt_succ hi) init
        (fun j hj hne =>
          h (j + 1) (Nat.succ_lt_succ hj) (fun he => hne (Nat.succ_injective he)))

/-- The fold of the per-season captures equals the desired label of the
(unique) season whose index is the latest index. -/
theorem fold_capture_eq (today : PyDate) (st : String) (fin latestIdx : Nat)
    (tmdb : List (Nat × SeasonData)) (l : List SeasonE) (p : Nat) (hp : p < l.length)
    (hpidx : (l.get ⟨p, hp⟩).index = latestIdx)
    (hothers : ∀ j, (hj : j < l.length) → j ≠ p → (l.get ⟨j, hj⟩).index ≠ latestIdx) :
    (l.map (processSeason today st fin latestIdx tmdb)).foldl
        (fun acc o => match o.capture with | some x => x | none => acc) none
      = (lookupSeason tmdb latestIdx).bind (seasonDesired today st fin latestIdx) := by
  have hlen : p < (l.map (processSeason today st fin latestIdx tmdb)).length := by
    simpa using hp
  rw [foldl_capture_single _ p hlen none ?others]
  case others =>
    intro j hj hne
    have hj2 : j < l.length := by simpa using hj
    have hget : (l.map (processSeason today st fin latestIdx tmdb)).get ⟨j, hj⟩
        = processSeason today st fin latestIdx tmdb (l.get ⟨j, hj2⟩) := by
      simp [List.get_eq_getElem, List.getElem_map]
    rw [hget, processSeason_capture]
    cases hlk : lookupSeason tmdb (l.get ⟨j, hj2⟩).index with
    | none => simp only [hlk]
    | some sd =>
        simp only [hlk]
        cases hair : airedEpisodes today sd with
        | nil => simp only [hair]
        | cons e0 r2 =>
            simp only [hair, if_neg (hothers j hj2 hne)]
  · have hget : (l.map (processSeason today st fin latestIdx tmdb)).get ⟨p, hlen⟩
        = processSeason today st fin latestIdx tmdb (l.get ⟨p, hp⟩) := by
      simp [List.get_eq_getElem, List.getElem_map]
    rw [hget, processSeason_capture, hpidx]
    cases hlk : lookupSeason tmdb latestIdx with
    | none => simp only [hlk, Option.none_bind]
    | some sd =>
        simp only [hlk]
        cases hair : airedEpisodes today sd with
        | nil =>
            simp only [hair, Option.some_bind, seasonDesired]
        | cons e0 r2 =>
            simp only [hair, if_true, Option.some_bind]

/-- After `set_label` with a truthy special label, the special labels are
exactly that label. -/
theorem set_label_special_filter (s : Finset String) (lbl : String)
    (hmem : lbl ∈ SPECIAL_LABELS) (hne : lbl ≠ "") :
    (set_label s lbl).1.filter (fun l => l ∈ SPECIAL_LABELS) = {lbl} := by
  ext a
  rw [Finset.mem_filter, Finset.mem_singleton]
  constructor
  · rintro ⟨ha, hs⟩
    exact set_label_special_mem s lbl a ha hs
  · rintro rfl
    refine ⟨?_, hmem⟩
    simp only [set_label]
    split
    · exact Finset.mem_insert_self _ _
    · next hcond =>
        have hin : a ∈ s := by
          by_contra hnotin
          exact hcond ⟨hne, hnotin⟩
        exact Finset.mem_filter.mpr ⟨hin, by simp⟩

theorem remove_all_special_filter (s : Finset String) :
    (remove_all_special_labels s).filter (fun l => l ∈ SPECIAL_LABELS) = ∅ := by
  ext a
  simp only [remove_all_special_labels, Finset.mem_filter, Finset.not_mem_empty,
    iff_false]
  rintro ⟨⟨-, h1⟩, h2⟩
  exact h1 h2

/-- Every label produced by the last-aired-episode classifier is a truthy
special label. -/
theorem classify_special {n : Nat} {t st : String} {si fi : Nat} {l : String}
    (h : classify_last_ep n t si fi st = some l) : l ∈ SPECIAL_LABELS ∧ l ≠ "" := by
  unfold classify_last_ep at h
  split at h
  · obtain rfl : (if si = 1 then "Pilot" else "Season Premiere") = l :=
      Option.some.inj h
    split <;> exact ⟨by decide, by decide⟩
  · split at h
    · obtain rfl := Option.some.inj h
      exact ⟨by decide, by decide⟩
    · split at h
      · obtain rfl : (if si = fi ∧ (st = "ended" ∨ st = "canceled")
            then "Series Finale" else "Season Finale") = l := Option.some.inj h
        split <;> exact ⟨by decide, by decide⟩
      · exact Option.noConfusion h

theorem seasonDesired_special {today : PyDate} {st : String} {fin si : Nat}
    {sd : SeasonData} {l : String}
    (h : seasonDesired today st fin si sd = some l) : l ∈ SPECIAL_LABELS ∧ l ≠ "" := by
  unfold seasonDesired at h
  split at h
  · exact Option.noConfusion h
  · exact classify_special h

/-! ### Episode-fold lemmas (for the update-log claim) -/

theorem set_episode_unmodified (s : Finset String) (c : String)
    (h : (set_episode_special_labels s {c}).2 = false) :
    (set_episode_special_labels s {c}).1 = s := by
  simp only [set_episode_special_labels, decide_eq_false_iff_not, not_or, ne_eq,
    not_not] at h
  obtain ⟨hrem, hadd⟩ := h
  simp only [set_episode_special_labels, hadd, Finset.union_empty]
  ext a
  rw [Finset.mem_filter]
  constructor
  · exact fun ha => ha.1
  · intro ha
    refine ⟨ha, fun hcond => ?_⟩
    have : a ∈ ((s ∩ SPECIAL_LABELS).filter (fun l => l ∉ ({c} : Finset String))) :=
      Finset.mem_filter.mpr ⟨Finset.mem_inter.mpr ⟨ha, hcond.1⟩, hcond.2⟩
    rw [hrem] at this
    exact Finset.not_mem_empty a this

theorem set_episode_modified_ne (s : Finset String) (c : String)
    (h : (set_episode_special_labels s {c}).2 = true) :
    (set_episode_special_labels s {c}).1 ≠ s := by
  simp only [set_episode_special_labels, decide_eq_true_eq] at h
  rcases h with h | h
  · obtain ⟨r, hr⟩ := Finset.nonempty_iff_ne_empty.mpr h
    rw [Finset.mem_filter, Finset.mem_inter] at hr
    obtain ⟨⟨hrs, hrsp⟩, hrc⟩ := hr
    intro he
    have : r ∈ (set_episode_special_labels s {c}).1 := by rw [he]; exact hrs
    simp only [set_episode_special_labels, Finset.mem_union, Finset.mem_filter] at this
    rcases this with ⟨-, hcond⟩ | ⟨hc, -⟩
    · exact hcond ⟨hrsp, hrc⟩
    · exact hrc hc
  · obtain ⟨a, ha⟩ := Finset.nonempty_iff_ne_empty.mpr h
    rw [Finset.mem_filter, Finset.mem_singleton] at ha
    obtain ⟨rfl, hans⟩ := ha
    intro he
    apply hans
    rw [← he]
    simp only [set_episode_special_labels, Finset.mem_union, Finset.mem_filter]
    right
    exact ⟨Finset.mem_singleton_self a, hans⟩

theorem updateFirst_length : ∀ (eps : List EpisodeE) (n : Nat) (v : Finset String),
    (updateFirstEpisode eps n v).length = eps.length
  | [], _, _ => rfl
  | e :: tl, n, v => by
      simp only [updateFirstEpisode]
      split
      · rfl
      · simp only [List.length_cons, updateFirst_length tl n v]

theorem getElem?_set_self {α : Type} (l : List α) (p : Nat) (v : α)
    (hp : p < l.length) : (l.set p v)[p]? = some v := by
  have hp2 : p < (l.set p v).length := by rw [List.length_set]; exact hp
  have h1 := List.getElem?_eq_getElem hp2
  rw [List.getElem_set_self hp2] at h1
  exact h1

theorem updateFirst_getElem_ne :
    ∀ (eps : List EpisodeE) (n : Nat) (v : Finset String) (p : Nat) (x : EpisodeE),
      eps[p]? = some x → x.index ≠ n →
      (updateFirstEpisode eps n v)[p]? = some x
  | [], _, _, p, x, hx, _ => by simp at hx
  | e :: tl, n, v, 0, x, hx, h => by
      rw [List.getElem?_cons_zero] at hx
      obtain rfl : e = x := Option.some.inj hx
      simp only [updateFirstEpisode]
      rw [if_neg h]
      rw [List.getElem?_cons_zero]
  | e :: tl, n, v, p + 1, x, hx, h => by
      rw [List.getElem?_cons_succ] at hx
      simp only [updateFirstEpisode]
      split
      · rw [List.getElem?_cons_succ]
        exact hx
      · rw [List.getElem?_cons_succ]
        exact updateFirst_getElem_ne tl n v p x hx h

theorem find_update_set :
    ∀ (eps : List EpisodeE) (n : Nat) (v : Finset String) (e : EpisodeE),
      findEpisode eps n = some e →
      ∃ p, ∃ _ : p < eps.length, eps[p]? = some e ∧ e.index = n ∧
        updateFirstEpisode eps n v = eps.set p ⟨e.index, v⟩
  | [], n, v, e, h => by simp [findEpisode] at h
  | e0 :: tl, n, v, e, h => by
      by_cases hidx : e0.index = n
      · have he : e = e0 := by
          simp only [findEpisode, List.find?_cons, decide_eq_true_eq, hidx] at h
          simp at h
          exact h.symm
        subst he
        refine ⟨0, Nat.succ_pos _, by rw [List.getElem?_cons_zero], hidx, ?_⟩
        simp only [updateFirstEpisode, if_pos hidx, List.set]
      · have htl : findEpisode tl n = some e := by
          simpa [findEpisode, List.find?_cons, hidx] using h
        obtain ⟨p, hp, hpe, hen, hupd⟩ := find_update_set tl n v e htl
        refine ⟨p + 1, Nat.succ_lt_succ hp, by simpa using hpe, hen, ?_⟩
        simp only [updateFirstEpisode, if_neg hidx, List.set, hupd]

theorem epFold_cons (k : Nat) (c : String) (tl : List (Nat × String))
    (st : List EpisodeE × Bool) :
    epFold ((k, c) :: tl) st
      = epFold tl
          (match findEpisode st.1 k with
           | none => st
           | some e =>
               (updateFirstEpisode st.1 k (set_episode_special_labels e.labels {c}).1,
                st.2 || (set_episode_special_labels e.labels {c}).2)) := by
  simp only [epFold, List.foldl_cons]

theorem epFold_untouched :
    ∀ (cands : List (Nat × String)) (eps : List EpisodeE) (b : Bool) (p : Nat)
      (x : EpisodeE), eps[p]? = some x → (∀ pr ∈ cands, pr.1 ≠ x.index) →
      (epFold cands (eps, b)).1[p]? = some x
  | [], eps, b, p, x, hx, _ => hx
  | (k, c) :: tl, eps, b, p, x, hx, h => by
      rw [epFold_cons]
      cases hf : findEpisode eps k with
      | none =>
          simp only [hf]
          exact epFold_untouched tl eps b p x hx
            (fun pr hpr => h pr (List.mem_cons_of_mem _ hpr))
      | some e =>
          simp only [hf]
          have hkp : k ≠ x.index := h (k, c) (List.mem_cons_self _ _)
          have hup : (updateFirstEpisode eps k
              (set_episode_special_labels e.labels {c}).1)[p]? = some x :=
            updateFirst_getElem_ne eps k _ p x hx (fun hh => hkp hh.symm)
          exact epFold_untouched tl _
            (b || (set_episode_special_labels e.labels {c}).2) p x hup
            (fun pr hpr => h pr (List.mem_cons_of_mem _ hpr))

theorem epFold_modified_ne :
    ∀ (cands : List (Nat × String)) (eps : List EpisodeE) (b : Bool),
      (cands.map Prod.fst).Nodup → (epFold cands (eps, b)).2 = true →
      b = true ∨ (epFold cands (eps, b)).1 ≠ eps
  | [], eps, b, _, h2 => Or.inl h2
  | (k, c) :: tl, eps, b, hnd, h2 => by
      rw [epFold_cons] at h2 ⊢
      have hnd2 : (tl.map Prod.fst).Nodup := (List.nodup_cons.mp hnd).2
      have hknotin : k ∉ tl.map Prod.fst := (List.nodup_cons.mp hnd).1
      cases hf : findEpisode eps k with
      | none =>
          simp only [hf] at h2 ⊢
          exact epFold_modified_ne tl eps b hnd2 h2
      | some e =>
          simp only [hf] at h2 ⊢
          cases hm : (set_episode_special_labels e.labels {c}).2 with
          | false =>
              obtain ⟨p, hp, hpe, hen, hupd⟩ :=
                find_update_set eps k (set_episode_special_labels e.labels {c}).1 e hf
              have heq : updateFirstEpisode eps k
                  (set_episode_special_labels e.labels {c}).1 = eps := by
                rw [hupd, set_episode_unmodified e.labels c hm]
                have hee : (⟨e.index, e.labels⟩ : EpisodeE) = e := rfl
                rw [hee]
                exact list_set_self eps p e hpe
              rw [heq, hm, Bool.or_false] at h2
              rw [heq, Bool.or_false]
              exact epFold_modified_ne tl eps b hnd2 h2
          | true =>
              right
              obtain ⟨p, hp, hpe, hen, hupd⟩ :=
                find_update_set eps k (set_episode_special_labels e.labels {c}).1 e hf
              have hlne := set_episode_modified_ne e.labels c hm
              have hval : (updateFirstEpisode eps k
                  (set_episode_special_labels e.labels {c}).1)[p]?
                  = some (⟨e.index, (set_episode_special_labels e.labels {c}).1⟩
                      : EpisodeE) := by
                rw [hupd]
                exact getElem?_set_self eps p _ hp
              have huntouched := epFold_untouched tl
                (updateFirstEpisode eps k (set_episode_special_labels e.labels {c}).1)
                (b || true) p
                (⟨e.index, (set_episode_special_labels e.labels {c}).1⟩ : EpisodeE)
                hval
                (fun pr hpr => by
                  intro hprx
                  apply hknotin
                  have hpk : pr.1 = k := by
                    rw [hprx]
                    exact hen
                  exact hpk ▸ List.mem_map_of_mem Prod.fst hpr)
              intro hfinal
              rw [hfinal, hpe] at huntouched
              have hcontra := Option.some.inj huntouched
              apply hlne
              have := congrArg EpisodeE.labels hcontra
              simpa using this.symm

theorem dictInsert_keys_nodup (d : List (Nat × String)) (k : Nat) (v : String)
    (h : (d.map Prod.fst).Nodup) : ((dictInsert d k v).map Prod.fst).Nodup := by
  unfold dictInsert
  split
  · have hkeys : (d.map (fun p => if p.1 = k then (k, v) else p)).map Prod.fst
        = d.map Prod.fst := by
      rw [List.map_map]
      apply List.map_congr_left
      intro p _
      by_cases hpk : p.1 = k
      · simp [hpk]
      · simp [hpk]
    rw [hkeys]
    exact h
  · next hany =>
      have hk : k ∉ d.map Prod.fst := by
        intro hmem
        apply hany
        rw [List.any_eq_true]
        obtain ⟨p, hp, hpk⟩ := List.mem_map.mp hmem
        exact ⟨p, hp, by simp [hpk]⟩
      rw [List.map_append]
      simp [List.nodup_append, h, hk]

theorem candidate_episodes_keys_nodup (si fi : Nat) (st : String) (today : PyDate)
    (eps : List EpData) :
    ((candidate_episodes si fi st today eps).map Prod.fst).Nodup := by
  suffices h : ∀ (l : List EpData) (d : List (Nat × String)), (d.map Prod.fst).Nodup →
      ((l.foldl
        (fun d ep =>
          match ep.air_date with
          | none => d
          | some dte =>
              if dte.toordinal > today.toordinal then d
              else
                match episode_candidate si fi st ep with
                | some c => dictInsert d ep.episode_number c
                | none => d)
        d).map Prod.fst).Nodup by
    exact h eps [] (by simp)
  intro l
  induction l with
  | nil => exact fun d hd => hd
  | cons ep tl ih =>
      intro d hd
      simp only [List.foldl_cons]
      apply ih
      cases had : ep.air_date with
      | none => exact hd
      | some dte =>
          by_cases hgt : dte.toordinal > today.toordinal
          · simp only [if_pos hgt]
            exact hd
          · simp only [if_neg hgt]
            cases hc : episode_candidate si fi st ep with
            | none => exact hd
            | some c => exact dictInsert_keys_nodup d _ _ hd

/-- `set_label` with a truthy special label and `modified = true` really
changes the special labels. -/
theorem set_label_modified_filter_ne (s : Finset String) (lbl : String)
    (hsp : lbl ∈ SPECIAL_LABELS) (hne : lbl ≠ "")
    (hmod : (set_label s lbl).2 = true) :
    (set_label s lbl).1.filter (fun l => l ∈ SPECIAL_LABELS)
      ≠ s.filter (fun l => l ∈ SPECIAL_LABELS) := by
  rw [set_label_special_filter s lbl hsp hne]
  intro he
  simp only [set_label] at hmod
  split at hmod
  · next hcond =>
      have hlbl : lbl ∈ s.filter (fun l => l ∈ SPECIAL_LABELS) := by
        rw [← he]
        exact Finset.mem_singleton_self lbl
      exact hcond.2 (Finset.mem_filter.mp hlbl).1
  · rw [decide_eq_true_eq] at hmod
    obtain ⟨r, hr⟩ := Finset.nonempty_iff_ne_empty.mpr hmod
    rw [Finset.mem_filter, Finset.mem_inter] at hr
    obtain ⟨⟨hrs, hrsp⟩, hrlbl⟩ := hr
    have hrmem : r ∈ ({lbl} : Finset String) := by
      rw [he]
      exact Finset.mem_filter.mpr ⟨hrs, hrsp⟩
    exact hrlbl (Finset.mem_singleton.mp hrmem)

theorem foldl_or_eq_any (l : List SeasonOutcome) :
    ∀ b : Bool, l.foldl (fun b o => b || o.modified) b
      = (b || l.any (fun o => o.modified)) := by
  induction l with
  | nil => intro b; simp
  | cons o tl ih =>
      intro b
      simp only [List.foldl_cons, List.any_cons, ih]
      rw [Bool.or_assoc]

/-- Every label reaching `latest_season_label` through the capture fold is a
truthy special label. -/
theorem fold_capture_special :
    ∀ (l : List SeasonOutcome),
      (∀ o ∈ l, ∀ x, o.capture = some x →
        ∀ lb, x = some lb → lb ∈ SPECIAL_LABELS ∧ lb ≠ "") →
      ∀ (init : Option String),
        (∀ lb, init = some lb → lb ∈ SPECIAL_LABELS ∧ lb ≠ "") →
        ∀ lb, l.foldl (fun acc o => match o.capture with | some x => x | none => acc)
            init = some lb →
          lb ∈ SPECIAL_LABELS ∧ lb ≠ ""
  | [], _, init, hinit, lb, hlb => hinit lb hlb
  | o :: tl, hl, init, hinit, lb, hlb => by
      rw [List.foldl_cons] at hlb
      cases hc : o.capture with
      | none =>
          simp only [hc] at hlb
          exact fold_capture_special tl
            (fun o2 h2 => hl o2 (List.mem_cons_of_mem _ h2)) init hinit lb hlb
      | some x =>
          simp only [hc] at hlb
          exact fold_capture_special tl
            (fun o2 h2 => hl o2 (List.mem_cons_of_mem _ h2)) x
            (hl o (List.mem_cons_self _ _) x hc) lb hlb

theorem processSeason_capture_special (today : PyDate) (st : String)
    (fin latestIdx : Nat) (tmdb : List (Nat × SeasonData)) (s : SeasonE) :
    ∀ x, (processSeason today st fin latestIdx tmdb s).capture = some x →
      ∀ lb, x = some lb → lb ∈ SPECIAL_LABELS ∧ lb ≠ "" := by
  intro x hx lb hlb
  rw [processSeason_capture] at hx
  cases hlk : lookupSeason tmdb s.index with
  | none =>
      simp only [hlk] at hx
      exact Option.noConfusion hx
  | some sd =>
      simp only [hlk] at hx
      cases hair : airedEpisodes today sd with
      | nil =>
          simp only [hair] at hx
          exact Option.noConfusion hx
      | cons e0 r2 =>
          simp only [hair] at hx
          split at hx
          · obtain rfl : seasonDesired today st fin s.index sd = x :=
              Option.some.inj hx
            exact seasonDesired_special hlb
          · exact Option.noConfusion hx

/-- A modified season outcome really differs from its input season in the
special labels or the episode list. -/
theorem processSeason_modified_ne (today : PyDate) (st : String)
    (fin latestIdx : Nat) (tmdb : List (Nat × SeasonData)) (s : SeasonE)
    (hmod : (processSeason today st fin latestIdx tmdb s).modified = true) :
    ((processSeason today st fin latestIdx tmdb s).season.labels.filter
        (fun l => l ∈ SPECIAL_LABELS),
     (processSeason today st fin latestIdx tmdb s).season.episodes)
      ≠ (s.labels.filter (fun l => l ∈ SPECIAL_LABELS), s.episodes) := by
  cases hlk : lookupSeason tmdb s.index with
  | none =>
      simp only [processSeason, hlk] at hmod
      exact Bool.noConfusion hmod
  | some sd =>
      cases hair : airedEpisodes today sd with
      | nil =>
          simp only [processSeason, hlk, hair] at hmod
          exact Bool.noConfusion hmod
      | cons e0 r2 =>
          simp only [processSeason, hlk, hair] at hmod ⊢
          cases hcl : classify_last_ep
              ((r2.foldl (fun a b =>
                if b.episode_number > a.episode_number then b else a) e0).episode_number)
              (pyLower ((r2.foldl (fun a b =>
                if b.episode_number > a.episode_number then b else a) e0).episode_type))
              s.index fin st with
          | some lbl =>
              simp only [hcl] at hmod ⊢
              rcases Bool.or_eq_true_iff.mp hmod with hm1 | hm2
              · intro hpair
                have h1 := congrArg Prod.fst hpair
                simp only at h1
                exact set_label_modified_filter_ne s.labels lbl
                  (classify_special hcl).1 (classify_special hcl).2 hm1 h1
              · intro hpair
                have h2 := congrArg Prod.snd hpair
                simp only at h2
                rcases epFold_modified_ne _ s.episodes false
                  (candidate_episodes_keys_nodup s.index fin st today sd.episodes)
                  hm2 with hfalse | hne2
                · exact Bool.noConfusion hfalse
                · exact hne2 h2
          | none =>
              simp only [hcl, Bool.false_or] at hmod ⊢
              intro hpair
              have h2 := congrArg Prod.snd hpair
              simp only at h2
              rcases epFold_modified_ne _ s.episodes false
                (candidate_episodes_keys_nodup s.index fin st today sd.episodes)
                hmod with hfalse | hne2
              · exact Bool.noConfusion hfalse
              · exact hne2 h2

/-! ## Claim theorems -/

/-- C1 (code bug): the reconciliation pass is not idempotent.  Concrete
series: latest Plex season 2, next episode S2E5 airing two days from today,
status `"Ended"`.  Round one (no prior log entry) adds
`"New Episode <weekday>"` to the show; round two, run against the unchanged
snapshot and the round-one state, removes that label again (the removal
loop of lines 183-185 also removes the label equal to the new one, and the
`label not in existing_show` test then refuses to re-add it), so the second
run is not mutation-free. -/
theorem second_run_strips_upcoming_label :
    (process_series defaultConfig ⟨2026, 1, 1⟩ 100
        ⟨"Ended", some 0, some ⟨some ⟨2026, 1, 3⟩, some 2, some 5⟩,
          [(2, ⟨[⟨1, some ⟨2025, 1, 1⟩, ""⟩]⟩)]⟩ none ⟨∅, [⟨2, ∅, []⟩]⟩).logEntry
      = some 100 ∧
    ("New Episode " ++ PyDate.strfA ⟨2026, 1, 3⟩) ∈
      (process_series defaultConfig ⟨2026, 1, 1⟩ 100
        ⟨"Ended", some 0, some ⟨some ⟨2026, 1, 3⟩, some 2, some 5⟩,
          [(2, ⟨[⟨1, some ⟨2025, 1, 1⟩, ""⟩]⟩)]⟩ none ⟨∅, [⟨2, ∅, []⟩]⟩).showE.labels ∧
    ("New Episode " ++ PyDate.strfA ⟨2026, 1, 3⟩) ∉
      (process_series defaultConfig ⟨2026, 1, 1⟩ 200
        ⟨"Ended", some 0, some ⟨some ⟨2026, 1, 3⟩, some 2, some 5⟩,
          [(2, ⟨[⟨1, some ⟨2025, 1, 1⟩, ""⟩]⟩)]⟩ (some 100)
        (process_series defaultConfig ⟨2026, 1, 1⟩ 100
          ⟨"Ended", some 0, some ⟨some ⟨2026, 1, 3⟩, some 2, some 5⟩,
            [(2, ⟨[⟨1, some ⟨2025, 1, 1⟩, ""⟩]⟩)]⟩ none
          ⟨∅, [⟨2, ∅, []⟩]⟩).showE).showE.labels := by
  decide

/-- C2 (counterexample): a series whose gate is closed (prior timestamp 10,
provider last-air-date 5) still has its show labels mutated, because
`set_status_label` runs on line 296, before the `should_process` check of
lines 298-306: the show gains `"Status: Ended"`. -/
theorem gate_skip_still_mutates_show :
    shouldProcess (some 10) (some 5) = false ∧
    (process_series defaultConfig ⟨2026, 1, 1⟩ 100 ⟨"Ended", some 5, none, []⟩
        (some 10) ⟨∅, [⟨1, ∅, []⟩]⟩).showE.labels = {"Status: Ended"} := by
  decide

/-- C2 (amended): when the change gate is closed, the update-log entry is
left untouched and no season or episode special label changes — all that can
still change are the show's and the latest season's Status/Upcoming labels,
because `set_status_label` runs before the gate. -/
theorem change_gate_frame (cfg : Config) (today : PyDate) (now : Int)
    (snap : Snapshot) (prior : Option Int) (sh : ShowE)
    (hgate : shouldProcess prior snap.last_air_date = false) :
    (process_series cfg today now snap prior sh).logEntry = prior ∧
    (process_series cfg today now snap prior sh).showE.seasons.map
        (fun s => s.episodes)
      = sh.seasons.map (fun s => s.episodes) ∧
    (process_series cfg today now snap prior sh).showE.seasons.map
        (fun s => s.labels.filter (fun l => l ∈ SPECIAL_LABELS))
      = sh.seasons.map (fun s => s.labels.filter (fun l => l ∈ SPECIAL_LABELS)) ∧
    (process_series cfg today now snap prior sh).showE.labels.filter
        (fun l => l ∈ SPECIAL_LABELS)
      = sh.labels.filter (fun l => l ∈ SPECIAL_LABELS) := by
  obtain ⟨L, seasons⟩ := sh
  cases seasons with
  | nil => exact ⟨rfl, rfl, rfl, rfl⟩
  | cons s0 rest =>
      have hpos : latestSeasonPos (s0 :: rest) < (s0 :: rest).length :=
        latestSeasonPos_lt _ (by simp)
      refine ⟨?_, ?_, ?_, ?_⟩
      · simp only [process_series, hgate, Bool.false_eq_true, not_false_eq_true, if_true]
      · simp only [process_series, hgate, Bool.false_eq_true, not_false_eq_true, if_true]
        rw [List.map_set]
        apply list_set_self
        rw [List.getElem?_map, getD_eq_some_getElem _ _ s0 hpos]
        rfl
      · simp only [process_series, hgate, Bool.false_eq_true, not_false_eq_true, if_true]
        rw [List.map_set]
        apply list_set_self
        rw [List.getElem?_map, getD_eq_some_getElem _ _ s0 hpos]
        simp only [Option.map_some', Option.some.injEq]
        exact ((set_status_label_filter_special cfg today snap.next_episode_to_air
          (pyLower snap.status) L ((s0 :: rest).getD (latestSeasonPos (s0 :: rest)) s0).labels
          ((s0 :: rest).getD (latestSeasonPos (s0 :: rest)) s0).index).2).symm
      · simp only [process_series, hgate, Bool.false_eq_true, not_false_eq_true, if_true]
        exact (set_status_label_filter_special cfg today snap.next_episode_to_air
          (pyLower snap.status) L ((s0 :: rest).getD (latestSeasonPos (s0 :: rest)) s0).labels
          ((s0 :: rest).getD (latestSeasonPos (s0 :: rest)) s0).index).1

/-- Witness for the amended C2. -/
theorem change_gate_frame_witness :
    (process_series defaultConfig ⟨2026, 1, 1⟩ 100 ⟨"Ended", some 5, none, []⟩
        (some 10) ⟨{"Pilot"}, [⟨1, {"Season Finale"}, [⟨1, {"Pilot"}⟩]⟩]⟩).logEntry
      = some 10 ∧
    (process_series defaultConfig ⟨2026, 1, 1⟩ 100 ⟨"Ended", some 5, none, []⟩
        (some 10) ⟨{"Pilot"}, [⟨1, {"Season Finale"}, [⟨1, {"Pilot"}⟩]⟩]⟩).showE.seasons.map
        (fun s => s.episodes)
      = [[⟨1, {"Pilot"}⟩]] ∧
    (process_series defaultConfig ⟨2026, 1, 1⟩ 100 ⟨"Ended", some 5, none, []⟩
        (some 10) ⟨{"Pilot"}, [⟨1, {"Season Finale"}, [⟨1, {"Pilot"}⟩]⟩]⟩).showE.seasons.map
        (fun s => s.labels.filter (fun l => l ∈ SPECIAL_LABELS))
      = [Finset.filter (fun l => l ∈ SPECIAL_LABELS) {"Season Finale"}] ∧
    (process_series defaultConfig ⟨2026, 1, 1⟩ 100 ⟨"Ended", some 5, none, []⟩
        (some 10) ⟨{"Pilot"}, [⟨1, {"Season Finale"}, [⟨1, {"Pilot"}⟩]⟩]⟩).showE.labels.filter
        (fun l => l ∈ SPECIAL_LABELS)
      = Finset.filter (fun l => l ∈ SPECIAL_LABELS) {"Pilot"} :=
  change_gate_frame defaultConfig ⟨2026, 1, 1⟩ 100 ⟨"Ended", some 5, none, []⟩
    (some 10) ⟨{"Pilot"}, [⟨1, {"Season Finale"}, [⟨1, {"Pilot"}⟩]⟩]⟩ (by decide)

/-- C3 (counterexample): a show holding `"New Episode 01/01"` for which a
`"Returning 01/11"` label is derived ends the reconciliation with two
Upcoming labels — the Returning branch (lines 213-215) only clears
Returning-prefixed labels, so exclusivity fails as stated. -/
theorem returning_stacks_on_new_episode :
    (set_status_label defaultConfig ⟨2026, 1, 1⟩
        (some ⟨some ⟨2026, 1, 11⟩, some 2, some 5⟩) "" {"New Episode 01/01"} ∅ 2).1
      = {"New Episode 01/01", "Returning 01/11"} ∧
    ¬ AtMostOne (fun l => isUpcoming l = true)
        (set_status_label defaultConfig ⟨2026, 1, 1⟩
          (some ⟨some ⟨2026, 1, 11⟩, some 2, some 5⟩) "" {"New Episode 01/01"} ∅ 2).1 := by
  decide

/-- C3 (amended): after reconciliation, each entity carries at most one
Special label (unconditionally, for `set_label`, episode reconciliation
with a single candidate, and full clearing), and the show carries at most
one Status label provided its prior status-prefixed labels all lay in the
fixed `STATUS_LABELS` set, and at most one Upcoming label provided the
prior state carried at most one and — when the derived label is a
Returning label — no `"New Episode"`/`"New Season"`-prefixed label was
present (the Returning branch does not clear those). -/
theorem vocabulary_exclusivity (cfg : Config) (today : PyDate) (ne : Option NextEp)
    (st : String) (T U : Finset String) (idx : Nat)
    (hSt : ∀ l ∈ T, isStatus l = true → l ∈ STATUS_LABELS)
    (hUp : AtMostOne (fun l => isUpcoming l = true) T)
    (hRet : ∀ lbl, upcomingChoice cfg today ne idx = .returning lbl →
      ∀ l ∈ T, pyStartswith l "New Episode" = false ∧
        pyStartswith l "New Season" = false) :
    AtMostOne (fun l => isUpcoming l = true)
        (set_status_label cfg today ne st T U idx).1 ∧
    AtMostOne (fun l => isStatus l = true)
        (set_status_label cfg today ne st T U idx).1 ∧
    (∀ (s : Finset String) (lbl : String),
      AtMostOne (fun l => l ∈ SPECIAL_LABELS) (set_label s lbl).1) ∧
    (∀ (s : Finset String) (c : String),
      AtMostOne (fun l => l ∈ SPECIAL_LABELS) (set_episode_special_labels s {c}).1) ∧
    (∀ s : Finset String,
      AtMostOne (fun l => l ∈ SPECIAL_LABELS) (remove_all_special_labels s)) := by
  refine ⟨?_, ?_, ?_, ?_, ?_⟩
  · rcases hch : upcomingChoice cfg today ne idx with lbl | lbl | lbl | _
    · exact atMostOne_of_subset_singleton _ _ lbl
        (sss_up_filter_new cfg today ne st T U idx lbl (Or.inl hch))
    · exact atMostOne_of_subset_singleton _ _ lbl
        (sss_up_filter_new cfg today ne st T U idx lbl (Or.inr hch))
    · have hkey : ∀ c ∈ (set_status_label cfg today ne st T U idx).1,
          isUpcoming c = true → c = lbl := by
        intro c hc hcu
        by_cases hr : pyStartswith c "Returning" = true
        · have h1 := (sss_ret_filter cfg today ne st T U idx lbl hch).1
            (Finset.mem_filter.mpr ⟨hc, hr⟩)
          rwa [Finset.mem_singleton] at h1
        · have hmem : c ∈ (set_status_label cfg today ne st T U idx).1.filter
              (fun l => isUpcoming l && !pyStartswith l "Returning") :=
            Finset.mem_filter.mpr ⟨hc, by
              rw [Bool.and_eq_true, hcu, Bool.not_eq_true']
              exact ⟨rfl, Bool.not_eq_true _ ▸ hr⟩⟩
          rw [(sss_ret_filter cfg today ne st T U idx lbl hch).2] at hmem
          obtain ⟨hcT, -⟩ := Finset.mem_filter.mp hmem
          have hnew := hRet lbl hch c hcT
          rw [isUpcoming, hnew.1, hnew.2] at hcu
          simp only [Bool.false_or] at hcu
          exact absurd hcu hr
      intro a ha b hb hpa hpb
      rw [hkey a ha hpa, hkey b hb hpb]
    · exact atMostOne_of_filter_eq _ _ T
        (sss_up_filter_none cfg today ne st T U idx hch) hUp
  · exact atMostOne_of_subset_singleton _ _ _
      (sss_status_filter cfg today ne st T U idx hSt)
  · intro s lbl a ha b hb hpa hpb
    rw [set_label_special_mem s lbl a ha hpa, set_label_special_mem s lbl b hb hpb]
  · intro s c a ha b hb hpa hpb
    rw [set_episode_special_mem s c a ha hpa, set_episode_special_mem s c b hb hpb]
  · intro s a ha b hb hpa hpb
    exact absurd hpa (Finset.mem_filter.mp ha).2

/-- Witness for the amended C3. -/
theorem vocabulary_exclusivity_witness :
    AtMostOne (fun l => isUpcoming l = true)
      (set_status_label defaultConfig ⟨2026, 1, 1⟩
        (some ⟨some ⟨2026, 1, 3⟩, some 2, some 5⟩) "ended"
        {"New Season 12/31", "Status: Ended", "Pilot"} ∅ 2).1 :=
  (vocabulary_exclusivity defaultConfig ⟨2026, 1, 1⟩
    (some ⟨some ⟨2026, 1, 3⟩, some 2, some 5⟩) "ended"
    {"New Season 12/31", "Status: Ended", "Pilot"} ∅ 2
    (by decide) (by decide)
    (by
      intro lbl hl
      rw [show upcomingChoice defaultConfig ⟨2026, 1, 1⟩
          (some ⟨some ⟨2026, 1, 3⟩, some 2, some 5⟩) 2
          = .newEpisode ("New Episode " ++ PyDate.strfA ⟨2026, 1, 3⟩) from by decide] at hl
      exact absurd hl (by simp))).1

/-- C4 (counterexample): when no upcoming label is derived (here: no
next-episode payload), the existing Upcoming label `"New Episode 01/01"` is
not removed — the script performs no Upcoming clearing at all in that case,
contrary to the claim. -/
theorem none_choice_leaves_upcoming :
    upcomingChoice defaultConfig ⟨2026, 1, 1⟩ none 2 = .noLabel ∧
    (set_status_label defaultConfig ⟨2026, 1, 1⟩ none "" {"New Episode 01/01"} ∅ 2).1
      = {"New Episode 01/01"} := by
  decide

/-- C4 (amended): Upcoming clearing only happens when a label is derived: a
New Episode / New Season derivation removes every other Upcoming label from
the show, a Returning derivation removes only other Returning-prefixed
labels and leaves the remaining Upcoming labels untouched, and when no
label is derived no Upcoming label is removed at all. -/
theorem upcoming_clearing (cfg : Config) (today : PyDate) (ne : Option NextEp)
    (st : String) (T U : Finset String) (idx : Nat) (lbl : String) :
    ((upcomingChoice cfg today ne idx = .newEpisode lbl ∨
      upcomingChoice cfg today ne idx = .newSeason lbl) →
      (set_status_label cfg today ne st T U idx).1.filter
          (fun l => isUpcoming l) ⊆ {lbl}) ∧
    (upcomingChoice cfg today ne idx = .returning lbl →
      (set_status_label cfg today ne st T U idx).1.filter
          (fun l => pyStartswith l "Returning") ⊆ {lbl} ∧
      (set_status_label cfg today ne st T U idx).1.filter
          (fun l => isUpcoming l && !pyStartswith l "Returning")
        = T.filter (fun l => isUpcoming l && !pyStartswith l "Returning")) ∧
    (upcomingChoice cfg today ne idx = .noLabel →
      (set_status_label cfg today ne st T U idx).1.filter (fun l => isUpcoming l)
        = T.filter (fun l => isUpcoming l)) :=
  ⟨sss_up_filter_new cfg today ne st T U idx lbl,
   sss_ret_filter cfg today ne st T U idx lbl,
   sss_up_filter_none cfg today ne st T U idx⟩

/-- Witness for the amended C4. -/
theorem upcoming_clearing_witness :
    (set_status_label defaultConfig ⟨2026, 1, 1⟩
        (some ⟨some ⟨2026, 1, 3⟩, some 2, some 5⟩) "ended"
        {"New Season 12/31", "Returning 12/30"} ∅ 2).1.filter
        (fun l => isUpcoming l)
      ⊆ {"New Episode " ++ PyDate.strfA ⟨2026, 1, 3⟩} :=
  (upcoming_clearing defaultConfig ⟨2026, 1, 1⟩
    (some ⟨some ⟨2026, 1, 3⟩, some 2, some 5⟩) "ended"
    {"New Season 12/31", "Returning 12/30"} ∅ 2
    ("New Episode " ++ PyDate.strfA ⟨2026, 1, 3⟩)).1 (Or.inl (by decide))

/-- C5 (counterexample): a derived `"New Season <date>"` label is applied to
the show only; the latest season's label set is left unchanged (the New
Season branch, lines 197-207, has no season mirroring), contrary to the
claim that both New labels are mirrored. -/
theorem new_season_not_mirrored :
    upcomingChoice defaultConfig ⟨2026, 1, 1⟩
        (some ⟨some ⟨2026, 1, 3⟩, some 3, some 1⟩) 2
      = .newSeason ("New Season " ++ PyDate.strfA ⟨2026, 1, 3⟩) ∧
    (set_status_label defaultConfig ⟨2026, 1, 1⟩
        (some ⟨some ⟨2026, 1, 3⟩, some 3, some 1⟩) "" ∅ ∅ 2).2 = ∅ ∧
    ("New Season " ++ PyDate.strfA ⟨2026, 1, 3⟩) ∈
      (set_status_label defaultConfig ⟨2026, 1, 1⟩
        (some ⟨some ⟨2026, 1, 3⟩, some 3, some 1⟩) "" ∅ ∅ 2).1 := by
  decide

/-- C5 (amended): a derived `"New Episode <date>"` label is applied to both
the show and the latest season; a derived `"New Season <date>"` or
`"Returning <date>"` label is applied to the show only, the latest season's
labels being returned unchanged. -/
theorem upcoming_mirroring (cfg : Config) (today : PyDate) (ne : Option NextEp)
    (st : String) (T U : Finset String) (idx : Nat) (lbl : String) :
    (upcomingChoice cfg today ne idx = .newEpisode lbl →
      (lbl ∉ T → lbl ∈ (set_status_label cfg today ne st T U idx).1) ∧
      (lbl ∉ U → lbl ∈ (set_status_label cfg today ne st T U idx).2)) ∧
    (upcomingChoice cfg today ne idx = .newSeason lbl →
      (lbl ∉ T → lbl ∈ (set_status_label cfg today ne st T U idx).1) ∧
      (set_status_label cfg today ne st T U idx).2 = U) ∧
    (upcomingChoice cfg today ne idx = .returning lbl →
      (lbl ∉ T → lbl ∈ (set_status_label cfg today ne st T U idx).1) ∧
      (set_status_label cfg today ne st T U idx).2 = U) := by
  refine ⟨?_, ?_, ?_⟩
  · intro hch
    obtain ⟨d, rfl⟩ := upcomingChoice_newEpisode_shape hch
    constructor
    · intro hT
      simp only [set_status_label, hch]
      rw [if_neg hT]
      exact mem_status_step _ st _ (Finset.mem_insert_self _ _) (newEpisode_not_statusL d)
    · intro hU
      simp only [set_status_label, hch]
      rw [if_neg hU]
      exact Finset.mem_insert_self _ _
  · intro hch
    obtain ⟨d, rfl⟩ := upcomingChoice_newSeason_shape hch
    constructor
    · intro hT
      simp only [set_status_label, hch]
      rw [if_neg hT]
      exact mem_status_step _ st _ (Finset.mem_insert_self _ _) (newSeason_not_statusL d)
    · simp only [set_status_label, hch]
  · intro hch
    obtain ⟨d, rfl⟩ := upcomingChoice_returning_shape hch
    constructor
    · intro hT
      simp only [set_status_label, hch]
      rw [if_neg hT]
      exact mem_status_step _ st _ (Finset.mem_insert_self _ _) (returning_not_statusL d)
    · simp only [set_status_label, hch]

/-- Witness for the amended C5. -/
theorem upcoming_mirroring_witness :
    ("New Episode " ++ PyDate.strfA ⟨2026, 1, 3⟩) ∈
      (set_status_label defaultConfig ⟨2026, 1, 1⟩
        (some ⟨some ⟨2026, 1, 3⟩, some 2, some 5⟩) "ended" ∅ ∅ 2).1 ∧
    ("New Episode " ++ PyDate.strfA ⟨2026, 1, 3⟩) ∈
      (set_status_label defaultConfig ⟨2026, 1, 1⟩
        (some ⟨some ⟨2026, 1, 3⟩, some 2, some 5⟩) "ended" ∅ ∅ 2).2 := by
  have h := (upcoming_mirroring defaultConfig ⟨2026, 1, 1⟩
    (some ⟨some ⟨2026, 1, 3⟩, some 2, some 5⟩) "ended" ∅ ∅ 2
    ("New Episode " ++ PyDate.strfA ⟨2026, 1, 3⟩)).1 (by decide)
  exact ⟨h.1 (by decide), h.2 (by decide)⟩

/-- C9 (counterexample): when no season batch at all was fetched, line 324
(`max()` over an empty sequence) raises and the series is aborted by the
outer `try`, so the show keeps its stale special label even though the
computed label of the latest season is none — the claim demands it be
cleared. -/
theorem show_label_survives_when_nothing_fetched :
    (lookupSeason ([] : List (Nat × SeasonData)) 1).bind
        (seasonDesired ⟨2026, 1, 1⟩ "ended" 0 1) = none ∧
    (process_series defaultConfig ⟨2026, 1, 1⟩ 100 ⟨"Ended", some 50, none, []⟩
        (some 10) ⟨{"Pilot"}, [⟨1, ∅, []⟩]⟩).showE.labels.filter
        (fun l => l ∈ SPECIAL_LABELS) = {"Pilot"} := by
  decide

/-- C9 (amended): for a processed series (open gate, at least one season
batch fetched, distinct Plex season indices), the special labels on the show
after the pass are exactly the singleton of the special label computed for
the maximum-index season — and are empty when that computation yields none,
including when the latest season has no aired episodes or its (individual)
season metadata was not fetched. -/
theorem show_special_mirrors_latest (cfg : Config) (today : PyDate) (now : Int)
    (snap : Snapshot) (prior : Option Int) (L : Finset String) (s0 : SeasonE)
    (rest : List SeasonE)
    (hnodup : ((s0 :: rest).map (fun s => s.index)).Nodup)
    (hgate : shouldProcess prior snap.last_air_date = true)
    (hfetch : snap.seasons ≠ []) :
    (process_series cfg today now snap prior ⟨L, s0 :: rest⟩).showE.labels.filter
        (fun l => l ∈ SPECIAL_LABELS)
      = match (lookupSeason snap.seasons
            ((s0 :: rest).getD (latestSeasonPos (s0 :: rest)) s0).index).bind
            (seasonDesired today (pyLower snap.status) (final_season_index snap.seasons)
              ((s0 :: rest).getD (latestSeasonPos (s0 :: rest)) s0).index) with
        | some lbl => {lbl}
        | none => (∅ : Finset String) := by
  have hie : snap.seasons.isEmpty = false := by
    cases h2 : snap.seasons with
    | nil => exact absurd h2 hfetch
    | cons q qs => rfl
  have hpos : latestSeasonPos (s0 :: rest) < (s0 :: rest).length :=
    latestSeasonPos_lt _ (by simp)
  simp only [process_series, hgate, hie, not_true, Bool.false_eq_true, if_false]
  have hlen1 : latestSeasonPos (s0 :: rest) <
      ((s0 :: rest).set (latestSeasonPos (s0 :: rest))
        { index := ((s0 :: rest).getD (latestSeasonPos (s0 :: rest)) s0).index,
          labels := (set_status_label cfg today snap.next_episode_to_air
            (pyLower snap.status) L
            ((s0 :: rest).getD (latestSeasonPos (s0 :: rest)) s0).labels
            ((s0 :: rest).getD (latestSeasonPos (s0 :: rest)) s0).index).2,
          episodes := ((s0 :: rest).getD (latestSeasonPos (s0 :: rest)) s0).episodes
        }).length := by
    rw [List.length_set]
    exact hpos
  have hfold := fold_capture_eq today (pyLower snap.status)
    (final_season_index snap.seasons)
    ((s0 :: rest).getD (latestSeasonPos (s0 :: rest)) s0).index snap.seasons
    _ (latestSeasonPos (s0 :: rest)) hlen1
    (by
      rw [List.get_eq_getElem, List.getElem_set_self]
    )
    (by
      intro j hj hne
      have hj2 : j < (s0 :: rest).length := by
        rw [List.length_set] at hj
        exact hj
      rw [List.get_eq_getElem, List.getElem_set_ne (fun h => hne h.symm)]
      intro he
      apply hne
      have hgd : (s0 :: rest).getD (latestSeasonPos (s0 :: rest)) s0
          = (s0 :: rest)[latestSeasonPos (s0 :: rest)] := by
        rw [List.getD_eq_getElem?_getD, List.getElem?_eq_getElem hpos]
        rfl
      have h1 : ((s0 :: rest).map (fun s => s.index)).get ⟨j, by simpa using hj2⟩
          = ((s0 :: rest).map (fun s => s.index)).get
              ⟨latestSeasonPos (s0 :: rest), by simpa using hpos⟩ := by
        simp only [List.get_eq_getElem, List.getElem_map]
        exact he.trans (congrArg SeasonE.index hgd)
      have h2 := (List.Nodup.get_inj_iff hnodup).mp h1
      simpa using h2)
  rw [hfold]
  cases hbind : (lookupSeason snap.seasons
      ((s0 :: rest).getD (latestSeasonPos (s0 :: rest)) s0).index).bind
      (seasonDesired today (pyLower snap.status) (final_season_index snap.seasons)
        ((s0 :: rest).getD (latestSeasonPos (s0 :: rest)) s0).index) with
  | none =>
      exact remove_all_special_filter _
  | some lbl =>
      have hsp : lbl ∈ SPECIAL_LABELS ∧ lbl ≠ "" := by
        cases hlk : lookupSeason snap.seasons
            ((s0 :: rest).getD (latestSeasonPos (s0 :: rest)) s0).index with
        | none => rw [hlk, Option.none_bind] at hbind; exact Option.noConfusion hbind
        | some sd =>
            rw [hlk, Option.some_bind] at hbind
            exact seasonDesired_special hbind
      exact set_label_special_filter _ lbl hsp.1 hsp.2

/-- Witness for the amended C9: a processed series whose latest season (2)
was fetched and has an aired premiere episode; the show ends with exactly
`{"Season Premiere"}`. -/
theorem show_special_mirrors_latest_witness :
    (process_series defaultConfig ⟨2026, 1, 1⟩ 100
        ⟨"Ended", some 50, none, [(2, ⟨[⟨1, some ⟨2025, 1, 1⟩, ""⟩]⟩)]⟩
        none ⟨{"Pilot"}, [⟨1, {"Season Finale"}, []⟩, ⟨2, ∅, []⟩]⟩).showE.labels.filter
        (fun l => l ∈ SPECIAL_LABELS)
      = match (lookupSeason [(2, ⟨[⟨1, some ⟨2025, 1, 1⟩, ""⟩]⟩)]
            (([⟨1, {"Season Finale"}, []⟩, ⟨2, ∅, []⟩] : List SeasonE).getD
              (latestSeasonPos [⟨1, {"Season Finale"}, []⟩, ⟨2, ∅, []⟩])
              ⟨1, {"Season Finale"}, []⟩).index).bind
            (seasonDesired ⟨2026, 1, 1⟩ (pyLower "Ended")
              (final_season_index [(2, ⟨[⟨1, some ⟨2025, 1, 1⟩, ""⟩]⟩)])
              (([⟨1, {"Season Finale"}, []⟩, ⟨2, ∅, []⟩] : List SeasonE).getD
                (latestSeasonPos [⟨1, {"Season Finale"}, []⟩, ⟨2, ∅, []⟩])
                ⟨1, {"Season Finale"}, []⟩).index) with
        | some lbl => {lbl}
        | none => (∅ : Finset String) :=
  show_special_mirrors_latest defaultConfig ⟨2026, 1, 1⟩ 100
    ⟨"Ended", some 50, none, [(2, ⟨[⟨1, some ⟨2025, 1, 1⟩, ""⟩]⟩)]⟩ none
    {"Pilot"} ⟨1, {"Season Finale"}, []⟩ [⟨2, ∅, []⟩]
    (by decide) (by decide) (by decide)

/-- C6 (counterexample): a processed series can lose a label without the
UpdateLog entry being written: here the fetched season has no aired
episodes, so `remove_all_special_labels` strips the season's `"Pilot"`
label, but that removal path never sets `any_modified` (lines 340-343
return `None` and line 363 forces `modified = False`), so the run records
nothing. -/
theorem label_change_without_log_record :
    (process_series defaultConfig ⟨2026, 1, 1⟩ 100 ⟨"", none, none, [(1, ⟨[]⟩)]⟩
        none ⟨∅, [⟨1, {"Pilot"}, []⟩]⟩).logEntry = none ∧
    (process_series defaultConfig ⟨2026, 1, 1⟩ 100 ⟨"", none, none, [(1, ⟨[]⟩)]⟩
        none ⟨∅, [⟨1, {"Pilot"}, []⟩]⟩).showE
      ≠ ⟨∅, [⟨1, {"Pilot"}, []⟩]⟩ := by
  decide

/-- C6 (amended): the UpdateLog entry is overwritten only if the pass really
changed some label set — if the run records a new entry, the show state
differs from the input state.  (The converse fails: label removals done by
`remove_all_special_labels` and Status/Upcoming changes made by
`set_status_label` never set `any_modified`, see the counterexample.) -/
theorem update_log_records_only_changes (cfg : Config) (today : PyDate) (now : Int)
    (snap : Snapshot) (prior : Option Int) (sh : ShowE)
    (h : (process_series cfg today now snap prior sh).logEntry ≠ prior) :
    (process_series cfg today now snap prior sh).showE ≠ sh := by
  obtain ⟨L, seasons⟩ := sh
  cases seasons with
  | nil => exact absurd rfl h
  | cons s0 rest =>
      by_cases hgate : shouldProcess prior snap.last_air_date = true
      case neg =>
        have hg2 : shouldProcess prior snap.last_air_date = false := by
          cases hbb : shouldProcess prior snap.last_air_date
          · rfl
          · exact absurd hbb hgate
        exfalso
        apply h
        simp only [process_series, hg2, Bool.false_eq_true, not_false_eq_true, if_true]
      case pos =>
        by_cases hie : snap.seasons.isEmpty = true
        case pos =>
          exfalso
          apply h
          simp only [process_series, hgate, not_true, Bool.false_eq_true, if_false,
            hie, if_true]
        case neg =>
          have hie2 : snap.seasons.isEmpty = false := by
            cases hbb : snap.seasons.isEmpty
            · rfl
            · exact absurd hbb hie
          simp only [process_series, hgate, hie2, not_true, Bool.false_eq_true,
            if_false] at h ⊢
          set pos := latestSeasonPos (s0 :: rest) with hpos0
          set latest := (s0 :: rest).getD pos s0 with hlat0
          set st := pyLower snap.status with hst0
          set fin := final_season_index snap.seasons with hfin0
          set SSL := set_status_label cfg today snap.next_episode_to_air st L
            latest.labels latest.index with hssl0
          set v : SeasonE :=
            { index := latest.index, labels := SSL.2, episodes := latest.episodes }
            with hv0
          set seasons1 := (s0 :: rest).set pos v with hs10
          set F := processSeason today st fin latest.index snap.seasons with hF0
          set latestLbl := List.foldl
            (fun acc o => match o.capture with | some x => x | none => acc) none
            (seasons1.map F) with hlbl0
          have hpos : pos < (s0 :: rest).length := by
            rw [hpos0]
            exact latestSeasonPos_lt _ (by simp)
          split at h
          case isFalse => exact absurd rfl h
          case isTrue hcond =>
            rcases Bool.or_eq_true_iff.mp hcond with hAny | hSh
            · rw [foldl_or_eq_any, Bool.false_or, List.any_eq_true] at hAny
              obtain ⟨o, ho, hom⟩ := hAny
              obtain ⟨s1, hs1, rfl⟩ := List.mem_map.mp ho
              intro heqshow
              have hseq : (seasons1.map F).map (fun x => x.season) = s0 :: rest := by
                have := congrArg ShowE.seasons heqshow
                simpa using this
              have hmapproj : seasons1.map
                  (fun s => (s.labels.filter (fun l => l ∈ SPECIAL_LABELS), s.episodes))
                  = (s0 :: rest).map
                  (fun s => (s.labels.filter (fun l => l ∈ SPECIAL_LABELS),
                    s.episodes)) := by
                rw [hs10, List.map_set]
                apply list_set_self
                rw [List.getElem?_map]
                rw [getD_eq_some_getElem _ _ s0 hpos]
                simp only [Option.map_some', Option.some.injEq, hv0]
                refine Prod.ext ?_ rfl
                exact ((set_status_label_filter_special cfg today
                  snap.next_episode_to_air st L latest.labels latest.index).2).symm
              have hstep1 : seasons1.map
                  (fun s => (((F s).season).labels.filter (fun l => l ∈ SPECIAL_LABELS),
                    ((F s).season).episodes))
                  = ((seasons1.map F).map (fun x => x.season)).map
                      (fun s => (s.labels.filter (fun l => l ∈ SPECIAL_LABELS),
                        s.episodes)) := by
                rw [List.map_map, List.map_map]
                rfl
              have hchain : seasons1.map
                  (fun s => (((F s).season).labels.filter (fun l => l ∈ SPECIAL_LABELS),
                    ((F s).season).episodes))
                  = seasons1.map
                  (fun s => (s.labels.filter (fun l => l ∈ SPECIAL_LABELS),
                    s.episodes)) := by
                rw [hstep1, hseq, ← hmapproj]
              have hpt := List.map_eq_map_iff.mp hchain s1 hs1
              exact processSeason_modified_ne today st fin latest.index snap.seasons
                s1 hom hpt
            · cases hll : latestLbl with
              | none =>
                  rw [hll] at hSh
                  exact Bool.noConfusion hSh
              | some lbl =>
                  rw [hll] at hSh
                  have hfoldeq := hlbl0.symm.trans hll
                  have hsp : lbl ∈ SPECIAL_LABELS ∧ lbl ≠ "" := by
                    refine fold_capture_special (seasons1.map F) ?_ none ?_ lbl hfoldeq
                    · intro o ho x hx lb hlb2
                      obtain ⟨s1, hs1, rfl⟩ := List.mem_map.mp ho
                      exact processSeason_capture_special today st fin latest.index
                        snap.seasons s1 x hx lb hlb2
                    · intro lb hlb2
                      exact Option.noConfusion hlb2
                  intro heqshow
                  have hlab : (set_label SSL.1 lbl).1 = L := by
                    have := congrArg ShowE.labels heqshow
                    simpa using this
                  apply set_label_modified_filter_ne SSL.1 lbl hsp.1 hsp.2 hSh
                  rw [hlab]
                  exact ((set_status_label_filter_special cfg today
                    snap.next_episode_to_air st L latest.labels latest.index).1).symm

/-- Witness for the amended C6: a series that gains a `"Season Premiere"`
label records a new log entry, and indeed its state changed. -/
theorem update_log_records_only_changes_witness :
    (process_series defaultConfig ⟨2026, 1, 1⟩ 100
        ⟨"Ended", some 50, none, [(2, ⟨[⟨1, some ⟨2025, 1, 1⟩, ""⟩]⟩)]⟩
        none ⟨∅, [⟨2, ∅, []⟩]⟩).showE ≠ ⟨∅, [⟨2, ∅, []⟩]⟩ :=
  update_log_records_only_changes defaultConfig ⟨2026, 1, 1⟩ 100
    ⟨"Ended", some 50, none, [(2, ⟨[⟨1, some ⟨2025, 1, 1⟩, ""⟩]⟩)]⟩
    none ⟨∅, [⟨2, ∅, []⟩]⟩ (by decide)

/-- C7: for a next-episode payload with a valid (truthy) air date, season
number and episode number, with `daysUntil = airDate - today`:
`daysUntil = daysToConsider` yields a New Episode/New Season label,
`daysUntil = daysToConsider + 1 ≤ returningDays` yields a Returning label,
`daysUntil = returningDays + 1` yields no label, and a negative `daysUntil`
is still eligible for the New labels (the comparisons have no lower
bound). -/
theorem upcoming_window_boundaries (cfg : Config) (today air : PyDate)
    (sn en latestIdx : Nat) (hsn : sn ≠ 0) (hen : en ≠ 0)
    (hc : 0 ≤ cfg.daysToConsider) (hcr : cfg.daysToConsider ≤ cfg.returningDays) :
    (air.toordinal - today.toordinal = cfg.daysToConsider →
      upcomingChoice cfg today (some ⟨some air, some sn, some en⟩) latestIdx
          = .newEpisode ("New Episode " ++
              formattedDate cfg air (air.toordinal - today.toordinal)) ∨
      upcomingChoice cfg today (some ⟨some air, some sn, some en⟩) latestIdx
          = .newSeason ("New Season " ++
              formattedDate cfg air (air.toordinal - today.toordinal))) ∧
    (air.toordinal - today.toordinal = cfg.daysToConsider + 1 →
      air.toordinal - today.toordinal ≤ cfg.returningDays →
      upcomingChoice cfg today (some ⟨some air, some sn, some en⟩) latestIdx
          = .returning ("Returning " ++
              formattedDate cfg air (air.toordinal - today.toordinal))) ∧
    (air.toordinal - today.toordinal = cfg.returningDays + 1 →
      upcomingChoice cfg today (some ⟨some air, some sn, some en⟩) latestIdx = .noLabel) ∧
    (air.toordinal - today.toordinal < 0 →
      upcomingChoice cfg today (some ⟨some air, some sn, some en⟩) latestIdx
          = .newEpisode ("New Episode " ++
              formattedDate cfg air (air.toordinal - today.toordinal)) ∨
      upcomingChoice cfg today (some ⟨some air, some sn, some en⟩) latestIdx
          = .newSeason ("New Season " ++
              formattedDate cfg air (air.toordinal - today.toordinal))) := by
  refine ⟨?_, ?_, ?_, ?_⟩
  · intro hdu
    simp only [upcomingChoice, Option.getD_some, hsn, hen, ne_eq, not_false_iff,
      and_self, if_true, hdu, le_refl, if_pos]
    by_cases hbr : sn = latestIdx ∧ en ≠ 1
    · left; rw [if_pos hbr]
    · right; rw [if_neg hbr]
  · intro hdu hret
    have h1 : ¬ air.toordinal - today.toordinal ≤ cfg.daysToConsider := by omega
    simp only [upcomingChoice, Option.getD_some, hsn, hen, ne_eq, not_false_iff,
      and_self, if_true, h1, if_false, hret, if_pos]
  · intro hdu
    have h1 : ¬ air.toordinal - today.toordinal ≤ cfg.daysToConsider := by omega
    have h2 : ¬ air.toordinal - today.toordinal ≤ cfg.returningDays := by omega
    simp only [upcomingChoice, Option.getD_some, hsn, hen, ne_eq, not_false_iff,
      and_self, if_true, h1, if_false, h2]
  · intro hdu
    have h1 : air.toordinal - today.toordinal ≤ cfg.daysToConsider := by omega
    simp only [upcomingChoice, Option.getD_some, hsn, hen, ne_eq, not_false_iff,
      and_self, if_true, h1, if_pos]
    by_cases hbr : sn = latestIdx ∧ en ≠ 1
    · left; rw [if_pos hbr]
    · right; rw [if_neg hbr]

/-- Witness for C7 at the shipped configuration. -/
theorem upcoming_window_boundaries_witness :
    upcomingChoice defaultConfig ⟨2026, 1, 1⟩
        (some ⟨some ⟨2026, 1, 9⟩, some 2, some 5⟩) 2
      = .returning ("Returning " ++
          formattedDate defaultConfig ⟨2026, 1, 9⟩
            ((⟨2026, 1, 9⟩ : PyDate).toordinal - (⟨2026, 1, 1⟩ : PyDate).toordinal)) :=
  (upcoming_window_boundaries defaultConfig ⟨2026, 1, 1⟩ ⟨2026, 1, 9⟩ 2 5 2
    (by decide) (by decide) (by decide) (by decide)).2.1 (by decide) (by decide)

/-- C8: an aired last episode of finale type and episode number different
from 1 is classified `"Series Finale"` exactly when its season index equals
the maximum season number present in the fetched metadata batch and the
series status is `"ended"` or `"canceled"`; for every non-maximal season it
is `"Season Finale"` regardless of status.  (`final_season_index` is indeed
the maximum of the fetched season numbers.) -/
theorem season_vs_series_finale (ep_num : Nat) (ep_type tmdb_status : String)
    (seasonIdx : Nat) (snapSeasons : List (Nat × SeasonData))
    (h1 : ep_type = "finale") (h2 : ep_num ≠ 1) :
    (classify_last_ep ep_num ep_type seasonIdx (final_season_index snapSeasons) tmdb_status
        = some "Series Finale"
      ↔ seasonIdx = final_season_index snapSeasons ∧
          (tmdb_status = "ended" ∨ tmdb_status = "canceled")) ∧
    (seasonIdx ≠ final_season_index snapSeasons →
      classify_last_ep ep_num ep_type seasonIdx (final_season_index snapSeasons) tmdb_status
        = some "Season Finale") ∧
    (∀ k ∈ snapSeasons.map Prod.fst, k ≤ final_season_index snapSeasons) ∧
    (snapSeasons ≠ [] → final_season_index snapSeasons ∈ snapSeasons.map Prod.fst) := by
  subst h1
  refine ⟨?_, ?_, ?_, ?_⟩
  · unfold classify_last_ep
    rw [if_neg h2, if_neg (by decide), if_pos rfl]
    by_cases hcond : seasonIdx = final_season_index snapSeasons ∧
        (tmdb_status = "ended" ∨ tmdb_status = "canceled")
    · rw [if_pos hcond]; simp [hcond]
    · rw [if_neg hcond]; simp [hcond]
  · intro hne
    unfold classify_last_ep
    rw [if_neg h2, if_neg (by decide), if_pos rfl,
      if_neg (by intro hcond; exact hne hcond.1)]
  · exact foldl_max_le _ _
  · intro hne
    apply foldl_max_zero_mem
    simpa using hne

/-- Witness for C8. -/
theorem season_vs_series_finale_witness :
    classify_last_ep 8 "finale" 3
        (final_season_index [(1, ⟨[]⟩), (3, ⟨[]⟩)]) "canceled"
      = some "Series Finale" :=
  (season_vs_series_finale 8 "finale" "canceled" 3 [(1, ⟨[]⟩), (3, ⟨[]⟩)]
    rfl (by decide)).1.mpr (by decide)

/-- C10: a next-episode payload whose season number or episode number is 0
produces no upcoming label, exactly as if the payload were absent — the
truthiness guard of line 170 does not distinguish 0 from missing. -/
theorem zero_treated_as_missing (cfg : Config) (today : PyDate) (ne : NextEp)
    (tmdb_status : String) (showL seasonL : Finset String) (latestIdx : Nat)
    (h : ne.season_number = some 0 ∨ ne.episode_number = some 0) :
    set_status_label cfg today (some ne) tmdb_status showL seasonL latestIdx
      = set_status_label cfg today none tmdb_status showL seasonL latestIdx := by
  have hch : upcomingChoice cfg today (some ne) latestIdx
      = upcomingChoice cfg today none latestIdx := by
    obtain ⟨ad, sn, en⟩ := ne
    rcases h with h | h <;> simp only at h <;> subst h <;>
      cases ad <;> simp [upcomingChoice]
  unfold set_status_label
  rw [hch]

/-- Witness for C10. -/
theorem zero_treated_as_missing_witness :
    set_status_label defaultConfig ⟨2026, 1, 1⟩
        (some ⟨some ⟨2026, 1, 3⟩, some 0, some 5⟩) "ended"
        {"New Episode Saturday"} ∅ 2
      = set_status_label defaultConfig ⟨2026, 1, 1⟩ none "ended"
        {"New Episode Saturday"} ∅ 2 :=
  zero_treated_as_missing defaultConfig ⟨2026, 1, 1⟩ ⟨some ⟨2026, 1, 3⟩, some 0, some 5⟩
    "ended" {"New Episode Saturday"} ∅ 2 (Or.inl rfl)

end TLP
